import Mathlib

/-!
# Transaction signature checks and local checks (`STTx.cpp`)

A shallow embedding of the signature verification (`STTx::checkSign`,
`STTx::checkSingleSign`, `STTx::checkMultiSign`), of the local checks
(`isMemoOkay`, `isAccountFieldOkay`, `isPseudoTx`, `passesLocalChecks`), of
`STTx::getMentionedAccounts`, and of the three constructors, `STTx::sign` and
`sterilize` of `src/casinocoin/protocol/impl/STTx.cpp`, followed by a model of the
apply context declared in `src/casinocoin/app/tx/impl/ApplyContext.h`, whose member
functions are defined elsewhere and are written from their specification.

The field accessors of `STObject`, the cryptographic primitives and the protocol
constants are declared in other headers (`STObject.h`, `PublicKey.h`, `Sign.h`,
`STTx.h`, `TxFlags.h`, `TxFormats.h`).  An object is therefore represented by what its
accessors return, the primitives are parameters (`Crypto`) and so are the constants
(`Protocol`, `Config`); the constructors work on an object type `Obj` through the
operations of `TxEnv`.  A call that may throw returns an `Option`, with `none` for the
throw; the handlers `catch (std::exception const&)` are matches on that value.
-/

namespace casinocoin

/-! ## Data model -/

/-- Byte string (`Blob`, a vector of unsigned chars); every byte is a natural number. -/
abbrev Blob := List Nat

/-- Account identifier: a 160-bit unsigned integer compared as a number;
`beast::zero` is `0`. -/
abbrev AccountID := Nat

/-- Outcome of a call that may throw a `std::exception`: `none` stands for the throw,
`some v` for the normal return of `v`. -/
abbrev Throwing (α : Type) := Option α

/-- Key types told apart by `publicKeyType`. -/
inductive KeyType
  | secp256k1
  | ed25519
  deriving DecidableEq, Repr

/-- Protocol constants used by the checks; their values are fixed in headers outside
the sources (`STTx.h`, `TxFlags.h`, `TxFormats.h`). -/
structure Protocol where
  /-- Lower bound on the number of multi-signers. -/
  minMultiSigners : Nat
  /-- Upper bound on the number of multi-signers. -/
  maxMultiSigners : Nat
  /-- Flag bit that requests fully canonical signatures. -/
  tfFullyCanonicalSig : Nat
  /-- Transaction type of the amendment pseudo-transaction. -/
  ttAMENDMENT : Nat
  /-- Transaction type of the fee pseudo-transaction. -/
  ttFEE : Nat
  /-- Transaction type of the configuration pseudo-transaction. -/
  ttCONFIG : Nat

/-- Cryptographic and encoding primitives called by the signature checks
(`PublicKey.h`, `Sign.h`, `AccountID.h`); they are parameters of the embedding. -/
structure Crypto where
  /-- Result of `publicKeyType (slice)`: the key type, or `none` when the bytes are not a
  recognized public key. -/
  publicKeyType : Blob → Option KeyType
  /-- Result of `verify (publicKey, message, signature, mustBeFullyCanonical)`; the call
  may throw. -/
  verify : Blob → Blob → Blob → Bool → Throwing Bool
  /-- Bytes of the serializer after `finishMultiSigningData (accountID, s)`, where the
  second argument holds the bytes of `s` before the call. -/
  finishMultiSigningData : AccountID → Blob → Blob
  /-- Base58 text of an account identifier. -/
  toBase58 : AccountID → String

/-- One entry of the `Signers` array, given by what the accessors used in
`checkMultiSign` return on it. -/
structure Signer where
  /-- Outcome of `signer.getAccountID (sfAccount)`. -/
  account : Throwing AccountID
  /-- Outcome of `signer.getFieldVL (sfSigningPubKey)`. -/
  signingPubKey : Throwing Blob
  /-- Outcome of `signer.getFieldVL (sfTxnSignature)`. -/
  txnSignature : Throwing Blob
  deriving DecidableEq, Repr

/-- Transaction envelope as seen by the signature checks: what each accessor called by
`checkSign`, `checkSingleSign` and `checkMultiSign` returns on it. -/
structure STTx where
  /-- Value of `isFieldPresent (sfSigners)`. -/
  signersPresent : Bool
  /-- Value of `isFieldPresent (sfTxnSignature)`. -/
  txnSignaturePresent : Bool
  /-- Outcome of `getFieldVL (sfSigningPubKey)`. -/
  signingPubKey : Throwing Blob
  /-- Outcome of `getFieldVL (sfTxnSignature)`. -/
  txnSignature : Throwing Blob
  /-- Outcome of `getFieldArray (sfSigners)`, the entries in array order. -/
  signers : Throwing (List Signer)
  /-- Outcome of `getAccountID (sfAccount)`, the source account. -/
  account : Throwing AccountID
  /-- Value of `getFlags ()`. -/
  flags : Nat
  /-- Bytes returned by `getSigningData (*this)`. -/
  signingData : Blob
  /-- Bytes of the serializer returned by `startMultiSigningData (*this)`. -/
  multiSigningDataStart : Blob
  deriving DecidableEq, Repr

/-! ## Signature checks -/

/-- The initialisation `bool const fullyCanonical = (getFlags() & tfFullyCanonicalSig)`. -/
def fullyCanonical (P : Protocol) (T : STTx) : Bool :=
  (T.flags &&& P.tfFullyCanonicalSig) != 0

/-- Body of the `try` block of `checkSingleSign`: the value assigned to `validSig`, or a
throw. -/
def singleSignTry (P : Protocol) (C : Crypto) (T : STTx) : Throwing Bool :=
  match T.signingPubKey with
  | none => none
  | some spk =>
    if (C.publicKeyType spk).isSome then
      match T.txnSignature with
      | none => none
      | some signature => C.verify spk T.signingData signature (fullyCanonical P T)
    else some false

/-- Embedding of `STTx::checkSingleSign`. -/
def checkSingleSign (P : Protocol) (C : Crypto) (T : STTx) : Bool × String :=
  if T.signersPresent then (false, "Cannot both single- and multi-sign.")
  else
    let validSig : Bool :=
      match singleSignTry P C T with
      | some v => v
      | none => false
    if validSig == false then (false, "Invalid signature.")
    else (true, "")

/-- Body of the `try` block inside the loop of `checkMultiSign` for one signer: the value
assigned to `validSig`, or a throw. -/
def multiSignTry (C : Crypto) (dataStart : Blob) (canonical : Bool)
    (accountID : AccountID) (signer : Signer) : Throwing Bool :=
  let s := C.finishMultiSigningData accountID dataStart
  match signer.signingPubKey with
  | none => none
  | some spk =>
    if (C.publicKeyType spk).isSome then
      match signer.txnSignature with
      | none => none
      | some signature => C.verify spk s signature canonical
    else some false

/-- The `for` loop of `checkMultiSign` over the signers that are still to be visited,
started with the current value of `lastAccountID`; the result is what the function
returns (the final `return {true, ""}` included), or a throw. -/
def checkMultiSignLoop (C : Crypto) (dataStart : Blob) (txnAccountID : AccountID)
    (canonical : Bool) : AccountID → List Signer → Throwing (Bool × String)
  | _, [] => some (true, "")
  | lastAccountID, signer :: rest =>
    match signer.account with
    | none => none
    | some accountID =>
      if accountID = txnAccountID then some (false, "Invalid multisigner.")
      else if lastAccountID = accountID then some (false, "Duplicate Signers not allowed.")
      else if lastAccountID > accountID then some (false, "Unsorted Signers array.")
      else
        let validSig : Bool :=
          match multiSignTry C dataStart canonical accountID signer with
          | some v => v
          | none => false
        if !validSig then
          some (false, "Invalid signature on account " ++ C.toBase58 accountID ++ ".")
        else checkMultiSignLoop C dataStart txnAccountID canonical accountID rest

/-- Embedding of `STTx::checkMultiSign`; `none` is an exception leaving the function. -/
def checkMultiSign (P : Protocol) (C : Crypto) (T : STTx) : Throwing (Bool × String) :=
  if !T.signersPresent then some (false, "Empty SigningPubKey.")
  else if T.txnSignaturePresent then some (false, "Cannot both single- and multi-sign.")
  else
    match T.signers with
    | none => none
    | some signers =>
      if signers.length < P.minMultiSigners || signers.length > P.maxMultiSigners then
        some (false, "Invalid Signers array size.")
      else
        match T.account with
        | none => none
        | some txnAccountID =>
          checkMultiSignLoop C T.multiSigningDataStart txnAccountID (fullyCanonical P T)
            0 signers

/-- Body of the `try` block of `checkSign`: the value assigned to `ret`, or a throw. -/
def checkSignTry (P : Protocol) (C : Crypto) (allowMultiSign : Bool) (T : STTx) :
    Throwing (Bool × String) :=
  if allowMultiSign then
    match T.signingPubKey with
    | none => none
    | some signingPubKey =>
      if signingPubKey.isEmpty then checkMultiSign P C T
      else some (checkSingleSign P C T)
  else some (checkSingleSign P C T)

/-- Embedding of `STTx::checkSign`. -/
def checkSign (P : Protocol) (C : Crypto) (allowMultiSign : Bool) (T : STTx) :
    Bool × String :=
  match checkSignTry P C allowMultiSign T with
  | some ret => ret
  | none => (false, "Internal signature check failure.")

/-! ## Local checks -/

/-- Field names that the memo check tells apart; any other field is `other`. -/
inductive SField
  | sfMemo
  | sfMemoType
  | sfMemoData
  | sfMemoFormat
  | other (code : Nat)
  deriving DecidableEq, Repr

/-- One sub-field of a memo object. -/
structure MemoElement where
  /-- Value of `memoElement.getFName ()`. -/
  fName : SField
  /-- Pair returned by `strUnHex (memoElement.getText ())`: the decoded bytes and the
  success flag. -/
  unHex : Blob × Bool
  deriving DecidableEq, Repr

/-- One element of the `Memos` array. -/
inductive MemoEntry
  /-- An element for which the cast to `STObject const*` succeeds, with its field name
  and its sub-fields in order. -/
  | object (fName : SField) (elements : List MemoElement)
  /-- An element for which the cast yields a null pointer. -/
  | nonObject
  deriving DecidableEq, Repr

/-- The `Memos` array of an object. -/
structure Memos where
  /-- Value of `s.getDataLength ()` after `memos.add (s)`. -/
  serializedLength : Nat
  /-- The elements of the array in order. -/
  entries : List MemoEntry
  deriving DecidableEq, Repr

/-- A field object of an `STObject`, by dynamic type. -/
inductive STBase
  /-- An `STAccount` with the values of `isDefault ()` and `value ()`. -/
  | account (isDefault : Bool) (value : AccountID)
  /-- An `STAmount` with the value of `getIssuer ()`. -/
  | amount (issuer : AccountID)
  /-- A field of any other type. -/
  | other
  deriving DecidableEq, Repr

/-- An `STObject` as seen by the local checks. -/
structure STObject where
  /-- The field objects `peekAtPIndex (i)` for `0 ≤ i < getCount ()`, in index order. -/
  fields : List STBase
  /-- The array `getFieldArray (sfMemos)`, or `none` when `isFieldPresent (sfMemos)` is
  false. -/
  memos : Option Memos
  /-- Value of `tx[~sfTransactionType]`. -/
  transactionType : Option Nat
  deriving DecidableEq, Repr

/-- Node configuration, as far as the local checks read it. -/
structure Config where
  /-- Largest serialized size of the `Memos` array. -/
  MAX_MEMO_SIZE : Nat
  deriving DecidableEq, Repr

/-- The characters of the string `symbols` in `isMemoOkay`. -/
def memoSymbols : String :=
  "0123456789" ++ "-._~:/?#[]@!$&'()*+,;=%" ++ "ABCDEFGHIJKLMNOPQRSTUVWXYZ" ++
    "abcdefghijklmnopqrstuvwxyz"

/-- The table `allowedSymbols` of `isMemoOkay`, read at index `c`: true exactly for the
codes of the characters of `symbols`. -/
def allowedSymbols (c : Nat) : Bool :=
  memoSymbols.toList.any (fun s => s.toNat == c)

/-- The loop `for (auto c : data.first)` of `isMemoOkay`: `false` when some byte is not
allowed (the loop then returns false). -/
def memoBytesOkay : Blob → Bool
  | [] => true
  | c :: rest => if !allowedSymbols c then false else memoBytesOkay rest

/-- The loop over the sub-fields of one memo object in `isMemoOkay`: the pair of the
verdict so far (`false` when the function returns false) and the `reason` variable. -/
def memoElementsOkay (reason : String) : List MemoElement → Bool × String
  | [] => (true, reason)
  | memoElement :: rest =>
    let name := memoElement.fName
    if name ≠ SField.sfMemoType ∧ name ≠ SField.sfMemoData ∧ name ≠ SField.sfMemoFormat then
      (false, "A memo may contain only MemoType, MemoData or " ++ "MemoFormat fields.")
    else
      let data := memoElement.unHex
      if !data.2 then
        (false, "The MemoType, MemoData and MemoFormat fields may " ++
          "only contain hex-encoded data.")
      else if name = SField.sfMemoData then memoElementsOkay reason rest
      else if !memoBytesOkay data.1 then
        (false, "The MemoType and MemoFormat fields may only " ++
          "contain characters that are allowed in URLs " ++ "under RFC 3986.")
      else memoElementsOkay reason rest

/-- The loop over the elements of the `Memos` array in `isMemoOkay`. -/
def memoEntriesOkay (reason : String) : List MemoEntry → Bool × String
  | [] => (true, reason)
  | MemoEntry.nonObject :: _ => (false, "A memo array may contain only Memo objects.")
  | MemoEntry.object fName elements :: rest =>
    if fName ≠ SField.sfMemo then (false, "A memo array may contain only Memo objects.")
    else
      match memoElementsOkay reason elements with
      | (false, r) => (false, r)
      | (true, _) => memoEntriesOkay reason rest

/-- Embedding of `isMemoOkay`; the second component is the `reason` variable after the
call (unchanged when the function returns true). -/
def isMemoOkay (st : STObject) (reason : String) (config : Config) : Bool × String :=
  match st.memos with
  | none => (true, reason)
  | some memos =>
    if memos.serializedLength > config.MAX_MEMO_SIZE then
      (false, "Max Memo size exceded, max memo = " ++ toString config.MAX_MEMO_SIZE)
    else memoEntriesOkay reason memos.entries

/-- The loop of `isAccountFieldOkay` over the fields that are still to be visited. -/
def accountFieldsOkay : List STBase → Bool
  | [] => true
  | STBase.account isDefault _ :: rest => if isDefault then false else accountFieldsOkay rest
  | _ :: rest => accountFieldsOkay rest

/-- Embedding of `isAccountFieldOkay`. -/
def isAccountFieldOkay (st : STObject) : Bool :=
  accountFieldsOkay st.fields

/-- Embedding of `isPseudoTx`. -/
def isPseudoTx (P : Protocol) (tx : STObject) : Bool :=
  match tx.transactionType with
  | none => false
  | some tt => tt == P.ttAMENDMENT || tt == P.ttFEE || tt == P.ttCONFIG

/-- Embedding of `passesLocalChecks`; the second component is the `reason` variable after
the call. -/
def passesLocalChecks (P : Protocol) (st : STObject) (reason : String) (config : Config) :
    Bool × String :=
  match isMemoOkay st reason config with
  | (false, r) => (false, r)
  | (true, r) =>
    if !isAccountFieldOkay st then (false, "An account field is invalid.")
    else if isPseudoTx P st then (false, "Cannot submit pseudo transactions.")
    else (true, r)

/-! ## Specification-side predicates -/

/-- Specification-side validity of one signer: both reads succeed, the key has a
recognized type and the signature verifies over the signer's multi-signing data. -/
def signerVerifies (C : Crypto) (dataStart : Blob) (canonical : Bool) (a : AccountID)
    (s : Signer) : Bool :=
  match s.signingPubKey, s.txnSignature with
  | some spk, some sig =>
    (C.publicKeyType spk).isSome &&
      (C.verify spk (C.finishMultiSigningData a dataStart) sig canonical == some true)
  | _, _ => false

/-- Conditions under which the scan accepts a list of signers, stated without
reference to the loop: every account read succeeds, the identifiers ascend strictly from
the predecessor, none is the source account and every signer verifies. -/
def ScanAccepts (C : Crypto) (d : Blob) (src : AccountID) (c : Bool) (last : AccountID)
    (l : List Signer) : Prop :=
  ∃ ids : List AccountID, l.map Signer.account = ids.map some ∧
    List.Chain (· < ·) last ids ∧ src ∉ ids ∧
    ∀ s ∈ l, ∀ a, s.account = some a → signerVerifies C d c a s = true

/-- Value of `lastAccountID` after the scan has accepted signers with identifiers `ids`,
having started from `last`. -/
def scanLast (last : AccountID) : List AccountID → AccountID
  | [] => last
  | a :: rest => scanLast a rest

/-! ## Sample inputs -/

/-- Sample values of the constants: signer bounds `[1, 8]`, canonical flag bit
`0x80000000`, pseudo-transaction types 100, 101 and 102. -/
def sampleProtocol : Protocol :=
  Protocol.mk 1 8 0x80000000 100 101 102

/-- Toy primitives: a key is recognized when it has 33 bytes, a signature verifies when
it equals the message, the multi-signing suffix appends the account number, and the
text of an account is its decimal numeral. -/
def sampleCrypto : Crypto :=
  Crypto.mk (fun k => if k.length = 33 then some KeyType.secp256k1 else none)
    (fun _ msg sig _ => some (sig == msg))
    (fun a s => s ++ [a])
    (fun a => toString a)

/-- A 33-byte key accepted by `sampleCrypto`. -/
def sampleKey : Blob := List.replicate 33 2

/-- A signer of the sample envelopes with a signature valid under `sampleCrypto` for the
multi-signing prefix `[7]`. -/
def sampleSigner (a : AccountID) : Signer :=
  Signer.mk (some a) (some sampleKey) (some [7, a])

/-- A multi-signed sample envelope with source account `100` and the given signers. -/
def sampleMulti (signers : List Signer) : STTx :=
  STTx.mk true false (some []) (some []) (some signers) (some 100) 0 [9] [7]

/-- An envelope with nine signers 1, ..., 9, one more than `maxMultiSigners = 8`. -/
def sampleNine : STTx :=
  sampleMulti ((List.range 9).map (fun i => sampleSigner (i + 1)))

/-- A sample envelope with the 33-byte key `sampleKey`, the signature `[9]` over the
signing data `[9]`, and a `Signers` array with the signers 1, 2 and 3. -/
def sampleBoth : STTx :=
  STTx.mk true true (some sampleKey) (some [9])
    (some [sampleSigner 1, sampleSigner 2, sampleSigner 3]) (some 100) 0 [9] [7]

/-- A single-signed sample envelope: key `sampleKey`, signature `[9]` over the signing
data `[9]`, no `Signers` field. -/
def sampleSingle : STTx :=
  STTx.mk false true (some sampleKey) (some [9]) (some []) (some 100) 0 [9] [7]

/-- The envelope `sampleSingle` with the signature replaced by `[8]`. -/
def sampleSingleBad : STTx :=
  STTx.mk false true (some sampleKey) (some [8]) (some []) (some 100) 0 [9] [7]

/-- An envelope on which the read of `SigningPubKey` throws. -/
def sampleNoKey : STTx :=
  STTx.mk true false none none (some [sampleSigner 1]) (some 100) 0 [9] [7]

/-- A multi-signed envelope whose only signer has no readable account. -/
def sampleBadSigner : STTx :=
  sampleMulti [Signer.mk none (some sampleKey) (some [7, 1])]

/-- An object that passes the local checks: a set account field, no memos, an ordinary
transaction type. -/
def sampleObject : STObject :=
  STObject.mk [STBase.account false 5, STBase.other, STBase.amount 0] none (some 0)

/-- The object `sampleObject` with a default account field added and the amendment
transaction type. -/
def sampleDefaultAccount : STObject :=
  STObject.mk [STBase.account false 5, STBase.account true 0] none (some 100)

/-- The object `sampleObject` with the amendment transaction type. -/
def samplePseudo : STObject :=
  STObject.mk [STBase.account false 5, STBase.other] none (some 100)

/-- An object whose memo has a `MemoType` with the byte `0x20` (a space), and which also
has a default account field. -/
def sampleBadMemo : STObject :=
  STObject.mk [STBase.account true 0]
    (some (Memos.mk 10 [MemoEntry.object SField.sfMemo
      [MemoElement.mk SField.sfMemoType ([0x20], true)]])) (some 0)

/-- The whitelist in the words of the specification: a byte is allowed when it is the
code of a digit, of an ASCII letter, or of one of the 23 symbols
`-._~:/?#[]@!$&'()*+,;=%`. -/
def urlSafeByte (c : Nat) : Bool :=
  (48 ≤ c && c ≤ 57) || (65 ≤ c && c ≤ 90) || (97 ≤ c && c ≤ 122) ||
    [45, 46, 95, 126, 58, 47, 63, 35, 91, 93, 64, 33, 36, 38, 39, 40, 41, 42, 43, 44, 59,
      61, 37].contains c

/-- Specification-side shape of one memo sub-field: its name is `MemoType`, `MemoData`
or `MemoFormat`, its text decodes as hex and, unless it is `MemoData`, every decoded
byte is on the whitelist. -/
def MemoElementWellFormed (e : MemoElement) : Prop :=
  (e.fName = SField.sfMemoType ∨ e.fName = SField.sfMemoData ∨
      e.fName = SField.sfMemoFormat) ∧
    e.unHex.2 = true ∧
    (e.fName ≠ SField.sfMemoData → ∀ c ∈ e.unHex.1, urlSafeByte c = true)

/-- Specification-side shape of one element of the `Memos` array: an object named `Memo`
all of whose sub-fields are well formed. -/
def MemoEntryWellFormed : MemoEntry → Prop
  | MemoEntry.object fName elements =>
    fName = SField.sfMemo ∧ ∀ e ∈ elements, MemoElementWellFormed e
  | MemoEntry.nonObject => False

/-- The reason set by the size check of `isMemoOkay`. -/
def memoSizeReason (config : Config) : String :=
  "Max Memo size exceded, max memo = " ++ toString config.MAX_MEMO_SIZE

/-- An object whose `Memos` array holds one well-formed memo and serializes to the
given number of bytes. -/
def sampleMemoObject (size : Nat) : STObject :=
  STObject.mk [STBase.account false 5]
    (some (Memos.mk size [MemoEntry.object SField.sfMemo
      [MemoElement.mk SField.sfMemoType ([0x61, 0x2F], true),
        MemoElement.mk SField.sfMemoData ([0x20, 0xFF], true)]])) (some 0)

/-- The member `insert` of `boost::container::flat_set<AccountID>` on the sorted
sequence of the set: the element is put at its place in the order unless it is already
there. -/
def flatSetInsert (x : AccountID) : List AccountID → List AccountID
  | [] => [x]
  | y :: ys =>
    if x < y then x :: y :: ys
    else if x = y then y :: ys
    else y :: flatSetInsert x ys

/-- The loop of `STTx::getMentionedAccounts` over the fields still to be visited, with
the current content of `list`.  The native-asset test `isCSC` is a parameter.  The
`assert` on a default account field is compiled out in release builds and is not part
of the embedding; the `if` that follows it is. -/
def getMentionedAccountsLoop (isCSC : AccountID → Bool) :
    List STBase → List AccountID → List AccountID
  | [], list => list
  | STBase.account isDefault value :: rest, list =>
    getMentionedAccountsLoop isCSC rest
      (if !isDefault then flatSetInsert value list else list)
  | STBase.amount issuer :: rest, list =>
    getMentionedAccountsLoop isCSC rest
      (if !isCSC issuer then flatSetInsert issuer list else list)
  | STBase.other :: rest, list => getMentionedAccountsLoop isCSC rest list

/-- Embedding of `STTx::getMentionedAccounts`, on the fields of the envelope seen as an
`STObject`; the result is the sorted sequence of the returned `flat_set`. -/
def getMentionedAccounts (isCSC : AccountID → Bool) (tx : STObject) : List AccountID :=
  getMentionedAccountsLoop isCSC tx.fields []

/-- Specification-side condition for an identifier to be mentioned by a list of fields:
it is the value of a non-default account field, or the issuer of an amount field and
not the native-asset issuer. -/
def Mentions (isCSC : AccountID → Bool) (fields : List STBase) (x : AccountID) : Prop :=
  STBase.account false x ∈ fields ∨ (STBase.amount x ∈ fields ∧ isCSC x = false)

/-- An object with two account fields of value 7, a default account field, an amount
issued by 3 and a native amount (issuer 0). -/
def sampleMentions : STObject :=
  STObject.mk [STBase.account false 7, STBase.amount 3, STBase.other, STBase.account false 7,
    STBase.amount 0, STBase.account true 9] none (some 0)

/-! ## Construction, signing and re-serialization of envelopes -/

/-- Hash-domain tags used by the envelope (`HashPrefix::transactionID` and
`HashPrefix::txSign`). -/
inductive HashPrefix
  | transactionID
  | txSign
  deriving DecidableEq, Repr

/-- Entry of the format registry (`TxFormats`), as far as the constructors read it. -/
structure TxFormat (Tmpl : Type) where
  /-- Value of `format->getType ()`. -/
  getType : Nat
  /-- Value of `format->elements`, the field template. -/
  elements : Tmpl

/-- What the constructors, `sign` and `sterilize` call outside `STTx.cpp`: the size
bounds of `Protocol.h`, the format registry, the operations of the `STObject` base on
an object of type `Obj`, and the hash and signature primitives.  All of them are
parameters of the embedding. -/
structure TxEnv (Obj Tmpl : Type) where
  /-- Smallest accepted number of bytes, `Protocol::txMinSizeBytes`. -/
  txMinSizeBytes : Nat
  /-- Largest accepted number of bytes, `Protocol::txMaxSizeBytes`. -/
  txMaxSizeBytes : Nat
  /-- Result of `TxFormats::getInstance ().findByType (type)`; `none` is the null
  pointer. -/
  findByType : Nat → Option (TxFormat Tmpl)
  /-- The object `STObject (sfTransaction)` after `set (sit)` on the given remaining
  bytes; the deserialization may throw. -/
  set : Blob → Throwing Obj
  /-- The object `STObject (sfTransaction)` after `set (format->elements)`. -/
  setTemplate : Tmpl → Obj
  /-- Outcome of `getFieldU16 (sfTransactionType)`. -/
  getFieldU16 : Obj → Throwing Nat
  /-- The object after `setFieldU16 (sfTransactionType, v)`. -/
  setFieldU16 : Obj → Nat → Obj
  /-- Value returned by `setType (elements)` and the object after the call. -/
  setType : Obj → Tmpl → Bool × Obj
  /-- Bytes that `add (s)` appends to a serializer: the full serialization. -/
  add : Obj → Blob
  /-- Bytes that `addWithoutSigningFields (s)` appends to a serializer. -/
  addWithoutSigningFields : Obj → Blob
  /-- Bytes that `s.add32 (prefix)` appends to a serializer. -/
  add32 : HashPrefix → Blob
  /-- The hash `getSHA512Half ()` of the bytes of a serializer. -/
  sha512Half : Blob → Nat
  /-- Signature returned by `casinocoin::sign (publicKey, secretKey, data)`. -/
  signData : Blob → Blob → Blob → Blob
  /-- The object after `setFieldVL (sfTxnSignature, sig)`. -/
  setFieldVL : Obj → Blob → Obj

/-- The input of the constructor from bytes, a `SerialIter`, given by the bytes that
are left in it; the lengths are taken to fit the `int` variable `length`. -/
structure SerialIter where
  /-- The bytes that have not been consumed yet. -/
  remaining : Blob
  deriving DecidableEq, Repr

/-- Value of `sit.getBytesLeft ()`. -/
def SerialIter.getBytesLeft (sit : SerialIter) : Nat :=
  sit.remaining.length

/-- How a construction ends when it does not produce an envelope. -/
inductive Failure
  /-- A `Throw<std::runtime_error> (what)` of the constructor. -/
  | runtimeError (what : String)
  /-- A `LogicError (what)`. -/
  | logicError (what : String)
  /-- An exception thrown by a called function (deserialization, field read or the
  assembler). -/
  | calleeThrew
  deriving DecidableEq, Repr

/-- The members of a constructed `STTx`: the `STObject` base, `tx_type_` and `tid_`
(the value returned by `getTransactionID`). -/
structure Envelope (Obj : Type) where
  /-- The `STObject` base of the envelope. -/
  object : Obj
  /-- The member `tx_type_`. -/
  tx_type_ : Nat
  /-- The member `tid_`. -/
  tid_ : Nat

/-- Modelled from the spec: `STObject::getHash (prefix)`, declared in `STObject.h`, is
the "hash over the full canonical serialization" with the domain tag put in front. -/
def getHash {Obj Tmpl : Type} (E : TxEnv Obj Tmpl) (p : HashPrefix) (o : Obj) : Nat :=
  E.sha512Half (E.add32 p ++ E.add o)

/-- Embedding of the static function `getTxFormat`. -/
def getTxFormat {Obj Tmpl : Type} (E : TxEnv Obj Tmpl) (type : Nat) :
    Except Failure (TxFormat Tmpl) :=
  match E.findByType type with
  | none => Except.error (Failure.runtimeError ("Invalid transaction type " ++ toString type))
  | some format => Except.ok format

/-- The statements shared by the constructors from an object and from bytes, from the
read of `TransactionType` on. -/
def constructTail {Obj Tmpl : Type} (E : TxEnv Obj Tmpl) (object : Obj) :
    Except Failure (Envelope Obj) :=
  match E.getFieldU16 object with
  | none => Except.error Failure.calleeThrew
  | some tx_type =>
    match getTxFormat E tx_type with
    | Except.error e => Except.error e
    | Except.ok format =>
      let r := E.setType object format.elements
      if !r.1 then Except.error (Failure.runtimeError "transaction not valid")
      else Except.ok (Envelope.mk r.2 tx_type (getHash E HashPrefix.transactionID r.2))

/-- Embedding of the constructor `STTx::STTx (STObject&& object)`. -/
def constructFromObject {Obj Tmpl : Type} (E : TxEnv Obj Tmpl) (object : Obj) :
    Except Failure (Envelope Obj) :=
  constructTail E object

/-- Embedding of the constructor `STTx::STTx (SerialIter& sit)`. -/
def constructFromSerialIter {Obj Tmpl : Type} (E : TxEnv Obj Tmpl) (sit : SerialIter) :
    Except Failure (Envelope Obj) :=
  let length := sit.getBytesLeft
  if length < E.txMinSizeBytes ∨ length > E.txMaxSizeBytes then
    Except.error (Failure.runtimeError "Transaction length invalid")
  else
    match E.set sit.remaining with
    | none => Except.error Failure.calleeThrew
    | some object => constructTail E object

/-- Embedding of the constructor `STTx::STTx (TxType type, assembler)`; the assembler
maps the object it is given to the object it leaves, or throws. -/
def constructFromAssembler {Obj Tmpl : Type} (E : TxEnv Obj Tmpl) (type : Nat)
    (assembler : Obj → Throwing Obj) : Except Failure (Envelope Obj) :=
  match getTxFormat E type with
  | Except.error e => Except.error e
  | Except.ok format =>
    let templated := E.setTemplate format.elements
    let typed := E.setFieldU16 templated format.getType
    match assembler typed with
    | none => Except.error Failure.calleeThrew
    | some assembled =>
      match E.getFieldU16 assembled with
      | none => Except.error Failure.calleeThrew
      | some tx_type =>
        if tx_type ≠ type then
          Except.error (Failure.logicError "Transaction type was mutated during assembly")
        else
          Except.ok (Envelope.mk assembled tx_type
            (getHash E HashPrefix.transactionID assembled))

/-- Embedding of the static function `getSigningData`. -/
def getSigningData {Obj Tmpl : Type} (E : TxEnv Obj Tmpl) (that : Obj) : Blob :=
  E.add32 HashPrefix.txSign ++ E.addWithoutSigningFields that

/-- Embedding of `STTx::sign`: the envelope after the call. -/
def sign {Obj Tmpl : Type} (E : TxEnv Obj Tmpl) (T : Envelope Obj)
    (publicKey secretKey : Blob) : Envelope Obj :=
  let data := getSigningData E T.object
  let sig := E.signData publicKey secretKey data
  let signed := E.setFieldVL T.object sig
  Envelope.mk signed T.tx_type_ (getHash E HashPrefix.transactionID signed)

/-- Modelled from the spec: the template check behind `STObject::setType`
(`STObject.cpp` is not among the sources), on a field set given as a list of pairs of a
field identifier and a value and a template given as a list of field identifiers with a
required flag: the field set "exactly matches the template ... (no missing required
fields, no extras)". -/
def conformsTo (fields : List (Nat × Nat)) (template : List (Nat × Bool)) : Bool :=
  template.all (fun e => !e.2 || fields.any (fun f => f.1 == e.1)) &&
    fields.all (fun f => template.any (fun e => e.1 == f.1))

/-- Sample template of a payment-shaped type: `TransactionType` (2), `Account` (1) and
`Destination` (3) are required, `TxnSignature` (4) is optional. -/
def sampleTemplate : List (Nat × Bool) :=
  [(2, true), (1, true), (3, true), (4, false)]

/-- Sample deserialization: the bytes are read as pairs of a field identifier and a
value; an odd number of bytes makes it throw. -/
def sampleSet : Blob → Throwing (List (Nat × Nat))
  | [] => some []
  | [_] => none
  | i :: v :: rest =>
    match sampleSet rest with
    | none => none
    | some fields => some ((i, v) :: fields)

/-- Sample serialization: identifier and value of every field, in order. -/
def sampleAdd : List (Nat × Nat) → Blob
  | [] => []
  | f :: rest => f.1 :: f.2 :: sampleAdd rest

/-- Sample operations on field sets that are lists of pairs: the registry knows the
type 0 with `sampleTemplate`, the size bounds are `[4, 16]`, `setType` is the check
`conformsTo`, the hash is a polynomial checksum. -/
def sampleEnv : TxEnv (List (Nat × Nat)) (List (Nat × Bool)) :=
  TxEnv.mk 4 16
    (fun t => if t = 0 then some (TxFormat.mk 0 sampleTemplate) else none)
    sampleSet
    (fun template => (template.filter (fun e => e.2)).map (fun e => (e.1, 0)))
    (fun o => (o.find? (fun f => f.1 == 2)).map (fun f => f.2))
    (fun o v => o.map (fun f => if f.1 = 2 then (2, v) else f))
    (fun o template => (conformsTo o template, o))
    sampleAdd
    (fun o => sampleAdd (o.filter (fun f => f.1 != 4)))
    (fun p => match p with
      | HashPrefix.transactionID => [84, 88, 78, 0]
      | HashPrefix.txSign => [83, 84, 88, 0])
    (fun bytes => bytes.foldl (fun h b => (h * 31 + b) % 1000003) 7)
    (fun _ secretKey data => secretKey ++ data)
    (fun o sig => (o.filter (fun f => f.1 != 4)) ++ [(4, sig.length)])

/-- A conforming payment-shaped field set: type 0, account 5, destination 6. -/
def samplePayment : List (Nat × Nat) := [(2, 0), (1, 5), (3, 6)]

/-- The field set `samplePayment` without its destination. -/
def sampleNoDestination : List (Nat × Nat) := [(2, 0), (1, 5)]

/-- The field set `samplePayment` with the foreign field 9 added. -/
def sampleExtraField : List (Nat × Nat) := [(2, 0), (1, 5), (3, 6), (9, 1)]

/-- A builder that removes the destination (field 3) from the object it is given. -/
def sampleDropDestination (o : List (Nat × Nat)) : Throwing (List (Nat × Nat)) :=
  some (o.filter (fun f => f.1 != 3))

/-- A builder that rewrites the `TransactionType` (field 2) to 1. -/
def sampleRetype (o : List (Nat × Nat)) : Throwing (List (Nat × Nat)) :=
  some (o.map (fun f => if f.1 = 2 then (2, 1) else f))

/-- Outcome of the account read of the signer listed directly before the end of `pre`,
or `last` when `pre` is empty. -/
def predecessorAccount (last : Throwing AccountID) : List Signer → Throwing AccountID
  | [] => last
  | p :: rest => predecessorAccount p.account rest

/-- An envelope without a `Signers` field and with an empty `SigningPubKey`. -/
def sampleNoSigners : STTx :=
  STTx.mk false false (some []) (some []) (some []) (some 100) 0 [9] [7]

/-! ## Apply context (`ApplyContext.h`) -/

/-- Modelled from the spec: the transaction result codes (`TER`, declared in `TER.h`,
which is not among the sources) as far as the invariant harness tells them apart:
success, the reserved "invariant failed" class, and any other failure with its code. -/
inductive TER
  | success
  | invariantFailed
  | failure (code : Nat)
  deriving DecidableEq, Repr

/-- Modelled from the spec: one invariant checker of the chain, "visited once per
mutated entry during a scan pass and once more at a finalize step, allowing checkers to
accumulate cross-entry state"; `finalize` is true when the checker has no violation to
report.  The checkers are declared in a header that is not among the sources. -/
structure InvariantChecker (Entry State : Type) where
  /-- State of the checker before the scan. -/
  init : State
  /-- The visit of one mutated entry. -/
  visitEntry : State → Entry → State
  /-- The final verdict on the accumulated state and the result so far. -/
  finalize : State → TER → Bool

/-- Modelled from the spec: `ApplyContext::checkInvariants`, defined in
`ApplyContext.cpp`, which is not among the sources: it "runs a fixed, statically
ordered chain of invariant checkers against the staged delta and the preliminary
result"; "if any checker reports a fatal inconsistency, the context's outcome is
forced to a reserved invariant failed class". -/
def checkInvariants {Entry State : Type} (delta : List Entry) :
    List (InvariantChecker Entry State) → TER → TER
  | [], terResult => terResult
  | checker :: rest, terResult =>
    if checker.finalize (delta.foldl checker.visitEntry checker.init) terResult then
      checkInvariants delta rest terResult
    else checkInvariants delta rest TER.invariantFailed

/-- Modelled from the spec: the staged view (`ApplyViewImpl`, not among the sources),
"a copy-on-write delta (inserted/modified/deleted entries)" with the delivered-amount
annotation and the destroyed native amount that it accumulates. -/
structure ApplyViewImpl (Key Entry : Type) where
  /-- The mutated keys, each with its staged content, `none` for a deleted entry. -/
  items : List (Key × Option Entry)
  /-- The delivered amount recorded by `deliver`, if any. -/
  delivered : Option Nat
  /-- The native amount destroyed through `rawDestroyCSC`. -/
  destroyed : Nat

/-- The members `base_`, `flags_` and `view_` of `ApplyContext`; the base view is given
by what a read of a key returns. -/
structure ApplyContext (Key Entry Flags : Type) where
  /-- The base view `base_`. -/
  base_ : Key → Option Entry
  /-- The member `flags_`. -/
  flags_ : Flags
  /-- The staged view `view_`. -/
  view_ : ApplyViewImpl Key Entry

/-- Modelled from the spec: a mutation staged through `view ()` or `rawView ()`:
writing or erasing an entry, or one of the two calls that `ApplyContext` forwards to
the staged view. -/
inductive Mutation (Key Entry : Type)
  | write (key : Key) (entry : Entry)
  | erase (key : Key)
  | deliver (amount : Nat)
  | rawDestroyCSC (fee : Nat)

/-- Modelled from the spec: the effect of one mutation on the staged view; the base
view is not touched. -/
def ApplyViewImpl.stage {Key Entry : Type} [DecidableEq Key] (v : ApplyViewImpl Key Entry) :
    Mutation Key Entry → ApplyViewImpl Key Entry
  | Mutation.write key entry =>
    { v with items := (key, some entry) :: v.items.filter (fun i => i.1 ≠ key) }
  | Mutation.erase key =>
    { v with items := (key, none) :: v.items.filter (fun i => i.1 ≠ key) }
  | Mutation.deliver amount => { v with delivered := some amount }
  | Mutation.rawDestroyCSC fee => { v with destroyed := v.destroyed + fee }

/-- A mutation made on the context through `view ()`, `rawView ()`, `deliver` or
`destroyCSC`: all of them act on `*view_`. -/
def ApplyContext.stage {Key Entry Flags : Type} [DecidableEq Key]
    (ctx : ApplyContext Key Entry Flags) (m : Mutation Key Entry) :
    ApplyContext Key Entry Flags :=
  { ctx with view_ := ctx.view_.stage m }

/-- Modelled from the spec: `ApplyContext::discard`, defined in `ApplyContext.cpp`: it
"abandons the current staged view's delta entirely and opens a new staged view over the
same base". -/
def ApplyContext.discard {Key Entry Flags : Type} (ctx : ApplyContext Key Entry Flags) :
    ApplyContext Key Entry Flags :=
  { ctx with view_ := ApplyViewImpl.mk [] none 0 }

/-- Modelled from the spec: `ApplyContext::size`, the "count of mutated entries" of the
staged delta. -/
def ApplyContext.size {Key Entry Flags : Type} (ctx : ApplyContext Key Entry Flags) : Nat :=
  ctx.view_.items.length

/-- Modelled from the spec: `ApplyContext::visit`, as the list of the calls made to the
callback: "for each mutated key, whether it was deleted, and its before/after
snapshots". -/
def ApplyContext.visit {Key Entry Flags : Type} (ctx : ApplyContext Key Entry Flags) :
    List (Key × Bool × Option Entry × Option Entry) :=
  ctx.view_.items.map (fun i => (i.1, i.2.isNone, ctx.base_ i.1, i.2))

/-- Modelled from the spec: a read of a key through `view ()`: the staged content when
the key was mutated, the content of the base view otherwise. -/
def ApplyContext.read {Key Entry Flags : Type} [DecidableEq Key]
    (ctx : ApplyContext Key Entry Flags) (key : Key) : Option Entry :=
  match ctx.view_.items.find? (fun i => i.1 = key) with
  | some i => i.2
  | none => ctx.base_ key

/-- A checker that counts the visited entries and reports a violation when more than
two entries were mutated. -/
def sampleCountChecker : InvariantChecker Nat Nat :=
  InvariantChecker.mk 0 (fun n _ => n + 1) (fun n _ => decide (n ≤ 2))

/-- A checker that never reports a violation. -/
def sampleQuietChecker : InvariantChecker Nat Nat :=
  InvariantChecker.mk 0 (fun n _ => n) (fun _ _ => true)

/-- A context over a base view that holds the entry 10 under the key 1, with an empty
staged view. -/
def sampleContext : ApplyContext Nat Nat Nat :=
  ApplyContext.mk (fun k => if k = 1 then some 10 else none) 0 (ApplyViewImpl.mk [] none 0)

/-- Toy primitives like `sampleCrypto`, except that a signature verifies only when
fully canonical signatures are demanded. -/
def sampleStrictCrypto : Crypto :=
  Crypto.mk (fun k => if k.length = 33 then some KeyType.secp256k1 else none)
    (fun _ msg sig mustBeFullyCanonical => some (sig == msg && mustBeFullyCanonical))
    (fun a s => s ++ [a])
    (fun a => toString a)

/-- The envelope `sampleSingle` with the flag bit `0x80000000` set. -/
def sampleSingleCanonical : STTx :=
  STTx.mk false true (some sampleKey) (some [9]) (some []) (some 100) 0x80000000 [9] [7]

/-- A multi-signed sample envelope like `sampleMulti`, with the flags given. -/
def sampleMultiFlags (flags : Nat) (signers : List Signer) : STTx :=
  STTx.mk true false (some []) (some []) (some signers) (some 100) flags [9] [7]

theorem multiSignTry_eq_some_true (C : Crypto) (d : Blob) (c : Bool) (a : AccountID)
    (s : Signer) :
    multiSignTry C d c a s = some true ↔ signerVerifies C d c a s = true := by
  unfold multiSignTry signerVerifies
  cases hk : s.signingPubKey with
  | none => simp
  | some spk =>
    cases hsig : s.txnSignature with
    | none => by_cases hp : (C.publicKeyType spk).isSome = true <;> simp [hp]
    | some sig => by_cases hp : (C.publicKeyType spk).isSome = true <;> simp [hp]

theorem loop_cons_some (C : Crypto) (d : Blob) (src : AccountID) (c : Bool)
    (last a : AccountID) (s : Signer) (rest : List Signer) (hs : s.account = some a) :
    checkMultiSignLoop C d src c last (s :: rest) =
      if a = src then some (false, "Invalid multisigner.")
      else if last = a then some (false, "Duplicate Signers not allowed.")
      else if last > a then some (false, "Unsorted Signers array.")
      else if signerVerifies C d c a s = true then checkMultiSignLoop C d src c a rest
      else some (false, "Invalid signature on account " ++ C.toBase58 a ++ ".") := by
  rw [checkMultiSignLoop, hs]
  simp only []
  by_cases h1 : a = src
  · simp [h1]
  by_cases h2 : last = a
  · simp [h1, h2]
  by_cases h3 : last > a
  · simp [h1, h2, h3]
  simp only [h1, h2, h3, if_false]
  by_cases hv : signerVerifies C d c a s = true
  · have := (multiSignTry_eq_some_true C d c a s).2 hv
    simp [this, hv]
  · have hne : multiSignTry C d c a s ≠ some true :=
      fun h => hv ((multiSignTry_eq_some_true C d c a s).1 h)
    simp only [hv, if_false]
    cases ht : multiSignTry C d c a s with
    | none => simp
    | some v =>
      cases v with
      | false => simp
      | true => exact absurd ht hne

theorem loop_cons_none (C : Crypto) (d : Blob) (src : AccountID) (c : Bool)
    (last : AccountID) (s : Signer) (rest : List Signer) (hs : s.account = none) :
    checkMultiSignLoop C d src c last (s :: rest) = none := by
  rw [checkMultiSignLoop, hs]

theorem loop_true_of_accepts (C : Crypto) (d : Blob) (src : AccountID) (c : Bool) :
    ∀ (l : List Signer) (last : AccountID), ScanAccepts C d src c last l →
      checkMultiSignLoop C d src c last l = some (true, "") := by
  intro l
  induction l with
  | nil => intro last _; rfl
  | cons s rest ih =>
    intro last h
    obtain ⟨ids, hmap, hchain, hsrc, hver⟩ := h
    cases ids with
    | nil => simp at hmap
    | cons a ids =>
      simp only [List.map_cons, List.cons.injEq] at hmap
      obtain ⟨hs, hrest⟩ := hmap
      rw [List.chain_cons] at hchain
      have h1 : a ≠ src := fun h => hsrc (by simp [h])
      have h2 : last ≠ a := Nat.ne_of_lt hchain.1
      have h3 : ¬ last > a := Nat.not_lt.mpr (Nat.le_of_lt hchain.1)
      have hv : signerVerifies C d c a s = true := hver s (by simp) a hs
      rw [loop_cons_some C d src c last a s rest hs]
      simp only [h1, h2, h3, hv, if_false, if_true]
      apply ih
      exact ⟨ids, hrest, hchain.2, fun h => hsrc (List.mem_cons_of_mem _ h),
        fun s' hs' a' ha' => hver s' (List.mem_cons_of_mem _ hs') a' ha'⟩

theorem accepts_of_loop_true (C : Crypto) (d : Blob) (src : AccountID) (c : Bool) :
    ∀ (l : List Signer) (last : AccountID) (r : String),
      checkMultiSignLoop C d src c last l = some (true, r) →
      r = "" ∧ ScanAccepts C d src c last l := by
  intro l
  induction l with
  | nil =>
    intro last r h
    simp only [checkMultiSignLoop, Option.some.injEq, Prod.mk.injEq, true_and] at h
    exact ⟨h.symm, [], rfl, List.Chain.nil, by simp, by simp⟩
  | cons s rest ih =>
    intro last r h
    cases hs : s.account with
    | none => rw [loop_cons_none C d src c last s rest hs] at h; exact absurd h (by simp)
    | some a =>
      rw [loop_cons_some C d src c last a s rest hs] at h
      by_cases h1 : a = src
      · simp [h1] at h
      by_cases h2 : last = a
      · simp [h1, h2] at h
      by_cases h3 : last > a
      · simp [h1, h2, h3] at h
      by_cases hv : signerVerifies C d c a s = true
      · simp only [h1, h2, h3, hv, if_false, if_true] at h
        obtain ⟨hr, ids, hmap, hchain, hsrc, hver⟩ := ih a r h
        refine ⟨hr, a :: ids, by simp [hs, hmap], ?_, ?_, ?_⟩
        · exact List.Chain.cons (Nat.lt_of_le_of_ne (Nat.le_of_not_lt h3) h2) hchain
        · intro hmem
          rcases List.mem_cons.1 hmem with h | h
          · exact h1 h.symm
          · exact hsrc h
        · intro s' hs' a' ha'
          rcases List.mem_cons.1 hs' with h | h
          · subst h
            rw [hs] at ha'
            cases ha'
            exact hv
          · exact hver s' h a' ha'
      · simp [h1, h2, h3, hv] at h

/-- The scan returns a pair (it does not throw) when every account read succeeds. -/
theorem loop_returns (C : Crypto) (d : Blob) (src : AccountID) (c : Bool) :
    ∀ (l : List Signer) (last : AccountID), (∀ s ∈ l, s.account ≠ none) →
      ∃ p, checkMultiSignLoop C d src c last l = some p := by
  intro l
  induction l with
  | nil => intro last _; exact ⟨_, rfl⟩
  | cons s rest ih =>
    intro last h
    cases hs : s.account with
    | none => exact absurd hs (h s (by simp))
    | some a =>
      rw [loop_cons_some C d src c last a s rest hs]
      have hrest := ih a (fun s' hs' => h s' (List.mem_cons_of_mem _ hs'))
      split_ifs <;> first | exact ⟨_, rfl⟩ | exact hrest

theorem checkMultiSign_eq_loop (P : Protocol) (C : Crypto) (T : STTx) (l : List Signer)
    (src : AccountID) (hp : T.signersPresent = true) (hsig : T.txnSignaturePresent = false)
    (hl : T.signers = some l) (hmin : P.minMultiSigners ≤ l.length)
    (hmax : l.length ≤ P.maxMultiSigners) (hsrc : T.account = some src) :
    checkMultiSign P C T =
      checkMultiSignLoop C T.multiSigningDataStart src (fullyCanonical P T) 0 l := by
  have h1 : ¬ l.length < P.minMultiSigners := Nat.not_lt.mpr hmin
  have h2 : ¬ l.length > P.maxMultiSigners := Nat.not_lt.mpr hmax
  simp [checkMultiSign, hp, hsig, hl, hsrc, h1, h2]

theorem checkMultiSign_true (P : Protocol) (C : Crypto) (T : STTx) (r : String)
    (h : checkMultiSign P C T = some (true, r)) :
    T.signersPresent = true ∧ T.txnSignaturePresent = false ∧
      ∃ l src, T.signers = some l ∧ T.account = some src ∧
        P.minMultiSigners ≤ l.length ∧ l.length ≤ P.maxMultiSigners ∧
        checkMultiSignLoop C T.multiSigningDataStart src (fullyCanonical P T) 0 l =
          some (true, r) := by
  unfold checkMultiSign at h
  cases hp : T.signersPresent with
  | false => simp [hp] at h
  | true =>
    cases hsig : T.txnSignaturePresent with
    | true => simp [hp, hsig] at h
    | false =>
      cases hl : T.signers with
      | none => simp [hp, hsig, hl] at h
      | some l =>
        by_cases hb : l.length < P.minMultiSigners ∨ l.length > P.maxMultiSigners
        · simp [hp, hsig, hl, hb] at h
        · cases hsrc : T.account with
          | none => simp [hp, hsig, hl, hb, hsrc] at h
          | some src =>
            simp only [hp, hsig, hl, hsrc, Bool.not_true, Bool.false_eq_true, if_false,
              Bool.or_eq_true, decide_eq_true_eq, hb] at h
            push_neg at hb
            exact ⟨rfl, rfl, l, src, rfl, rfl, hb.1, hb.2, h⟩

/-- Whenever the signer array and the source account can be read and every signer's
account can be read, `checkMultiSign` returns a pair. -/
theorem checkMultiSign_returns (P : Protocol) (C : Crypto) (T : STTx) (l : List Signer)
    (hl : T.signers = some l) (hacc : ∀ s ∈ l, s.account ≠ none)
    (hsrc : T.account ≠ none) : ∃ p, checkMultiSign P C T = some p := by
  unfold checkMultiSign
  rw [hl]
  cases hs : T.account with
  | none => exact absurd hs hsrc
  | some src =>
    simp only []
    split_ifs
    · exact ⟨_, rfl⟩
    · exact ⟨_, rfl⟩
    · exact ⟨_, rfl⟩
    · exact loop_returns C _ src _ l 0 hacc

theorem map_some_readable (l : List Signer) (ids : List AccountID)
    (h : l.map Signer.account = ids.map some) : ∀ s ∈ l, s.account ≠ none := by
  intro s hs hn
  have : s.account ∈ l.map Signer.account := List.mem_map_of_mem _ hs
  rw [h, hn] at this
  simp at this

theorem checkSign_multi (P : Protocol) (C : Crypto) (T : STTx)
    (h : T.signingPubKey = some []) :
    checkSign P C true T =
      match checkMultiSign P C T with
      | some ret => ret
      | none => (false, "Internal signature check failure.") := by
  simp [checkSign, checkSignTry, h]

theorem scanLast_append_singleton (ids : List AccountID) (last x : AccountID) :
    scanLast last (ids ++ [x]) = x := by
  induction ids generalizing last with
  | nil => rfl
  | cons a ids ih => exact ih a

theorem loop_append_accepts (C : Crypto) (d : Blob) (src : AccountID) (c : Bool)
    (rest : List Signer) :
    ∀ (pre : List Signer) (last : AccountID) (ids : List AccountID),
      pre.map Signer.account = ids.map some → List.Chain (· < ·) last ids → src ∉ ids →
      (∀ s ∈ pre, ∀ a, s.account = some a → signerVerifies C d c a s = true) →
      checkMultiSignLoop C d src c last (pre ++ rest) =
        checkMultiSignLoop C d src c (scanLast last ids) rest := by
  intro pre
  induction pre with
  | nil =>
    intro last ids hmap _ _ _
    cases ids with
    | nil => rfl
    | cons a ids => simp at hmap
  | cons s pre ih =>
    intro last ids hmap hchain hsrc hver
    cases ids with
    | nil => simp at hmap
    | cons a ids =>
      simp only [List.map_cons, List.cons.injEq] at hmap
      rw [List.chain_cons] at hchain
      have h1 : a ≠ src := fun h => hsrc (by simp [h])
      have h2 : last ≠ a := Nat.ne_of_lt hchain.1
      have h3 : ¬ last > a := Nat.not_lt.mpr (Nat.le_of_lt hchain.1)
      have hv : signerVerifies C d c a s = true := hver s (by simp) a hmap.1
      rw [List.cons_append, loop_cons_some C d src c last a s (pre ++ rest) hmap.1]
      simp only [h1, h2, h3, hv, if_false, if_true]
      exact ih a ids hmap.2 hchain.2 (fun h => hsrc (List.mem_cons_of_mem _ h))
        (fun s' hs' a' ha' => hver s' (List.mem_cons_of_mem _ hs') a' ha')

theorem checkMultiSign_not_true_of_source (P : Protocol) (C : Crypto) (T : STTx)
    (pre post : List Signer) (s : Signer) (src : AccountID)
    (hl : T.signers = some (pre ++ s :: post)) (hsrc : T.account = some src)
    (hs : s.account = some src) (r : String) : checkMultiSign P C T ≠ some (true, r) := by
  intro h
  obtain ⟨_, _, l', src', hl', hsrc', _, _, hloop⟩ := checkMultiSign_true P C T r h
  rw [hl] at hl'
  rw [hsrc] at hsrc'
  cases hl'
  cases hsrc'
  obtain ⟨_, ids, hmap, _, hnot, _⟩ := accepts_of_loop_true C _ src _ _ 0 r hloop
  have hmem : s.account ∈ (pre ++ s :: post).map Signer.account :=
    List.mem_map_of_mem _ (by simp)
  rw [hmap, hs] at hmem
  rcases List.mem_map.1 hmem with ⟨x, hx, hxe⟩
  cases hxe
  exact hnot hx

theorem loop_zero_first (C : Crypto) (d : Blob) (src : AccountID) (c : Bool)
    (f : Signer) (rest : List Signer) (hf : f.account = some 0) (hsrc : src ≠ 0) :
    checkMultiSignLoop C d src c 0 (f :: rest) =
      some (false, "Duplicate Signers not allowed.") := by
  rw [loop_cons_some C d src c 0 0 f rest hf]
  simp [Ne.symm hsrc]

theorem loop_adjacent_duplicate (C : Crypto) (d : Blob) (src : AccountID) (c : Bool)
    (pre post : List Signer) (s1 s2 : Signer) (ids : List AccountID) (x : AccountID)
    (hids : pre.map Signer.account = ids.map some) (h1 : s1.account = some x)
    (h2 : s2.account = some x) (hasc : List.Chain' (· < ·) (ids ++ [x]))
    (hne : src ∉ ids ++ [x])
    (hver : ∀ s ∈ pre ++ [s1], ∀ a, s.account = some a → signerVerifies C d c a s = true) :
    checkMultiSignLoop C d src c 0 (pre ++ s1 :: s2 :: post) =
      some (false, "Duplicate Signers not allowed.") := by
  have hmap : (pre ++ [s1]).map Signer.account = (ids ++ [x]).map some := by
    simp [hids, h1]
  have hx : x ≠ src := fun h => hne (by simp [h])
  by_cases hz : List.Chain (· < ·) (0 : AccountID) (ids ++ [x])
  · have happ : pre ++ s1 :: s2 :: post = (pre ++ [s1]) ++ s2 :: post := by simp
    rw [happ, loop_append_accepts C d src c (s2 :: post) (pre ++ [s1]) 0 (ids ++ [x]) hmap hz
      hne hver, scanLast_append_singleton, loop_cons_some C d src c x x s2 post h2]
    simp [hx]
  · cases pre with
    | nil =>
      cases ids with
      | nil =>
        have hx0 : x = 0 := by
          by_contra hx0
          exact hz (List.Chain.cons (Nat.pos_of_ne_zero hx0) List.Chain.nil)
        subst hx0
        exact loop_zero_first C d src c s1 _ h1 (fun h => hx h.symm)
      | cons a ids => simp at hids
    | cons f pre =>
      cases ids with
      | nil => simp at hids
      | cons a ids =>
        simp only [List.map_cons, List.cons.injEq] at hids
        have ha0 : a = 0 := by
          by_contra ha0
          exact hz (List.Chain.cons (Nat.pos_of_ne_zero ha0) hasc)
        subst ha0
        have hs0 : src ≠ 0 := fun h => hne (by simp [h])
        exact loop_zero_first C d src c f _ hids.1 hs0

theorem invalid_signature_ne_size (x : String) :
    "Invalid signature on account " ++ x ++ "." ≠ "Invalid Signers array size." := by
  intro h
  have h2 := congrArg (fun s : String => s.data.take 9) h
  simp only [String.data_append] at h2
  revert h2
  simp [List.take]

theorem loop_reason_ne_size (C : Crypto) (d : Blob) (src : AccountID) (c : Bool) :
    ∀ (l : List Signer) (last : AccountID),
      checkMultiSignLoop C d src c last l ≠ some (false, "Invalid Signers array size.") := by
  intro l
  induction l with
  | nil => intro last; simp [checkMultiSignLoop]
  | cons s l ih =>
    intro last
    cases hs : s.account with
    | none => rw [loop_cons_none C d src c last s l hs]; simp
    | some a =>
      rw [loop_cons_some C d src c last a s l hs]
      split_ifs
      · decide
      · decide
      · decide
      · exact ih a
      · intro h
        simp only [Option.some.injEq, Prod.mk.injEq, true_and] at h
        exact invalid_signature_ne_size _ h

theorem checkSign_false (P : Protocol) (C : Crypto) (T : STTx) :
    checkSign P C false T = checkSingleSign P C T := by
  simp [checkSign, checkSignTry]

theorem checkSign_single (P : Protocol) (C : Crypto) (T : STTx) (spk : Blob)
    (hk : T.signingPubKey = some spk) (hne : spk ≠ []) :
    checkSign P C true T = checkSingleSign P C T := by
  cases spk with
  | nil => exact absurd rfl hne
  | cons x xs => simp [checkSign, checkSignTry, hk]

theorem singleSignTry_eq_some_true (P : Protocol) (C : Crypto) (T : STTx) :
    singleSignTry P C T = some true ↔
      ∃ spk sig, T.signingPubKey = some spk ∧ (C.publicKeyType spk).isSome = true ∧
        T.txnSignature = some sig ∧
        C.verify spk T.signingData sig (fullyCanonical P T) = some true := by
  unfold singleSignTry
  cases hk : T.signingPubKey with
  | none => simp
  | some spk =>
    cases hsig : T.txnSignature with
    | none => by_cases hp : (C.publicKeyType spk).isSome = true <;> simp [hp]
    | some sig => by_cases hp : (C.publicKeyType spk).isSome = true <;> simp [hp]

theorem checkSingleSign_no_signers (P : Protocol) (C : Crypto) (T : STTx)
    (hs : T.signersPresent = false) :
    checkSingleSign P C T =
      if singleSignTry P C T = some true then (true, "") else (false, "Invalid signature.") := by
  unfold checkSingleSign
  rw [hs]
  cases ht : singleSignTry P C T with
  | none => simp
  | some v => cases v <;> simp

theorem chain_lt_zero (ids : List AccountID) (h : List.Chain' (· < ·) ids)
    (hz : (0 : AccountID) ∉ ids) : List.Chain (· < ·) (0 : AccountID) ids := by
  cases ids with
  | nil => exact List.Chain.nil
  | cons a ids =>
    refine List.Chain.cons ?_ h
    exact Nat.pos_of_ne_zero (fun h0 => hz (by simp [h0]))

theorem accountFieldsOkay_iff (l : List STBase) :
    accountFieldsOkay l = true ↔ ∀ f ∈ l, ∀ v, f ≠ STBase.account true v := by
  induction l with
  | nil => simp [accountFieldsOkay]
  | cons f l ih =>
    cases f with
    | account isDefault value =>
      cases isDefault with
      | true =>
        simp only [accountFieldsOkay, if_true, Bool.false_eq_true, false_iff]
        intro h
        exact h _ (by simp) value rfl
      | false => simp [accountFieldsOkay, ih]
    | amount issuer => simp [accountFieldsOkay, ih]
    | other => simp [accountFieldsOkay, ih]

theorem not_chain_of_descent (last : AccountID) (pre post : List AccountID) (a b : AccountID)
    (hle : b ≤ a) : ¬ List.Chain (· < ·) last (pre ++ a :: b :: post) := by
  induction pre generalizing last with
  | nil =>
    intro h
    simp only [List.nil_append, List.chain_cons] at h
    exact absurd h.2.1 (Nat.not_lt.mpr hle)
  | cons x pre ih =>
    intro h
    simp only [List.cons_append, List.chain_cons] at h
    exact ih x h.2

/-- If some signer's account identifier is not above its predecessor's, the scan never
accepts. -/
theorem checkMultiSign_not_true_of_descent (P : Protocol) (C : Crypto) (T : STTx)
    (l : List Signer) (pre post : List AccountID) (a b : AccountID)
    (hl : T.signers = some l)
    (hids : l.map Signer.account = (pre ++ a :: b :: post).map some) (hle : b ≤ a)
    (r : String) : checkMultiSign P C T ≠ some (true, r) := by
  intro h
  obtain ⟨_, _, l', src, hl', _, _, _, hloop⟩ := checkMultiSign_true P C T r h
  rw [hl] at hl'
  cases hl'
  obtain ⟨_, ids, hmap, hchain, _, _⟩ := accepts_of_loop_true C _ src _ l 0 r hloop
  rw [hids] at hmap
  have := List.map_injective_iff.2 (Option.some_injective AccountID) hmap
  rw [← this] at hchain
  exact not_chain_of_descent 0 pre post a b hle hchain

set_option maxRecDepth 100000 in
theorem allowedSymbols_eq_urlSafeByte (c : Nat) : allowedSymbols c = urlSafeByte c := by
  by_cases h : c < 128
  · have hall : ∀ n < 128, allowedSymbols n = urlSafeByte n := by decide
    exact hall c h
  · have h1 : urlSafeByte c = false := by
      unfold urlSafeByte
      simp only [Bool.or_eq_false_iff, Bool.and_eq_false_iff, decide_eq_false_iff_not]
      refine ⟨⟨⟨Or.inr (by omega), Or.inr (by omega)⟩, Or.inr (by omega)⟩, ?_⟩
      simp only [List.contains_eq_any_beq, List.any_cons, List.any_nil, Bool.or_false,
        Bool.or_eq_false_iff, beq_eq_false_iff_ne]
      omega
    have h2 : allowedSymbols c = false := by
      unfold allowedSymbols
      rw [List.any_eq_false]
      intro s hs
      have hlt : ∀ s ∈ memoSymbols.toList, s.toNat < 128 := by decide
      have := hlt s hs
      simp only [beq_iff_eq]
      omega
    rw [h1, h2]

theorem memoBytesOkay_iff (l : Blob) :
    memoBytesOkay l = true ↔ ∀ c ∈ l, urlSafeByte c = true := by
  induction l with
  | nil => simp [memoBytesOkay]
  | cons c l ih =>
    rw [memoBytesOkay, allowedSymbols_eq_urlSafeByte]
    cases h : urlSafeByte c <;> simp [h, ih]

theorem memoElementsOkay_true_iff (reason : String) (l : List MemoElement) :
    (memoElementsOkay reason l).1 = true ↔ ∀ e ∈ l, MemoElementWellFormed e := by
  induction l with
  | nil => simp [memoElementsOkay]
  | cons e l ih =>
    rw [memoElementsOkay]
    simp only [List.mem_cons, forall_eq_or_imp, MemoElementWellFormed]
    by_cases hn : e.fName ≠ SField.sfMemoType ∧ e.fName ≠ SField.sfMemoData ∧
        e.fName ≠ SField.sfMemoFormat
    · rw [if_pos hn]
      simp only [Bool.false_eq_true, false_iff]
      rintro ⟨⟨h | h | h, _⟩, _⟩
      · exact hn.1 h
      · exact hn.2.1 h
      · exact hn.2.2 h
    · rw [if_neg hn]
      have hname : e.fName = SField.sfMemoType ∨ e.fName = SField.sfMemoData ∨
          e.fName = SField.sfMemoFormat := by
        by_contra hc
        push_neg at hc
        exact hn hc
      cases hx : e.unHex.2 with
      | false => simp
      | true =>
        simp only [Bool.not_true, Bool.false_eq_true, if_false]
        by_cases hd : e.fName = SField.sfMemoData
        · simp [hd, ih, MemoElementWellFormed]
        · rw [if_neg hd]
          cases hb : memoBytesOkay e.unHex.1 with
          | false =>
            simp only [Bool.not_false, if_true, Bool.false_eq_true, false_iff]
            rintro ⟨⟨_, _, h⟩, _⟩
            have := (memoBytesOkay_iff _).2 (h (fun h' => hd h'))
            rw [hb] at this
            exact absurd this (by simp)
          | true =>
            have hall := (memoBytesOkay_iff _).1 hb
            simp only [Bool.not_true, Bool.false_eq_true, if_false, ih, MemoElementWellFormed]
            constructor
            · intro h
              exact ⟨⟨hname, trivial, fun _ => hall⟩, h⟩
            · intro h
              exact h.2

theorem memoEntriesOkay_true_iff (reason : String) (l : List MemoEntry) :
    (memoEntriesOkay reason l).1 = true ↔ ∀ e ∈ l, MemoEntryWellFormed e := by
  induction l with
  | nil => simp [memoEntriesOkay]
  | cons e l ih =>
    cases e with
    | nonObject =>
      simp only [memoEntriesOkay, Bool.false_eq_true, List.mem_cons, forall_eq_or_imp,
        MemoEntryWellFormed, false_and]
    | object fName elements =>
      rw [memoEntriesOkay]
      simp only [List.mem_cons, forall_eq_or_imp, MemoEntryWellFormed]
      by_cases hf : fName = SField.sfMemo
      · have hel := memoElementsOkay_true_iff reason elements
        cases hm : memoElementsOkay reason elements with
        | mk b r =>
          rw [hm] at hel
          cases b with
          | false =>
            simp only [hf, ne_eq, not_true_eq_false, if_false, Bool.false_eq_true, true_and,
              false_iff]
            intro h
            exact absurd (hel.2 h.1) (by simp)
          | true =>
            simp only [hf, ne_eq, not_true_eq_false, if_false, true_and, ih]
            constructor
            · intro h
              exact ⟨hel.1 rfl, h⟩
            · intro h
              exact h.2
      · simp [hf]

theorem memoSizeReason_head (config : Config) :
    (memoSizeReason config).data.take 1 = ['M'] := by
  unfold memoSizeReason
  simp only [String.data_append]
  simp [List.take]

theorem memoElementsOkay_reason (reason : String) (l : List MemoElement) (r : String)
    (h : memoElementsOkay reason l = (false, r)) : r.data.take 1 ≠ ['M'] := by
  induction l with
  | nil => simp [memoElementsOkay] at h
  | cons e l ih =>
    rw [memoElementsOkay] at h
    simp only [] at h
    split_ifs at h
    · cases h; decide
    · cases h; decide
    · exact ih h
    · cases h; decide
    · exact ih h

theorem memoEntriesOkay_reason (reason : String) (l : List MemoEntry) (r : String)
    (h : memoEntriesOkay reason l = (false, r)) : r.data.take 1 ≠ ['M'] := by
  induction l with
  | nil => simp [memoEntriesOkay] at h
  | cons e l ih =>
    cases e with
    | nonObject =>
      simp only [memoEntriesOkay, Prod.mk.injEq, true_and] at h
      subst h; decide
    | object fName elements =>
      rw [memoEntriesOkay] at h
      split_ifs at h
      · cases h; decide
      · cases hm : memoElementsOkay reason elements with
        | mk b r' =>
          rw [hm] at h
          cases b with
          | false =>
            simp only [Prod.mk.injEq, true_and] at h
            subst h
            exact memoElementsOkay_reason reason elements r' hm
          | true => exact ih h

set_option maxRecDepth 100000 in
theorem allowedSymbols_count : ((List.range 256).filter allowedSymbols).length = 85 := by
  decide

theorem mem_flatSetInsert (x z : AccountID) (l : List AccountID) :
    z ∈ flatSetInsert x l ↔ z = x ∨ z ∈ l := by
  induction l with
  | nil => simp [flatSetInsert]
  | cons y ys ih =>
    rw [flatSetInsert]
    split_ifs with h1 h2
    · simp
    · subst h2
      simp
    · simp only [List.mem_cons, ih]
      tauto

theorem sorted_flatSetInsert (x : AccountID) (l : List AccountID)
    (h : l.Sorted (· < ·)) : (flatSetInsert x l).Sorted (· < ·) := by
  induction l with
  | nil => simp [flatSetInsert]
  | cons y ys ih =>
    rw [flatSetInsert]
    have hy := List.sorted_cons.1 h
    split_ifs with h1 h2
    · refine List.sorted_cons.2 ⟨?_, h⟩
      intro b hb
      rcases List.mem_cons.1 hb with hb | hb
      · rw [hb]; exact h1
      · exact Nat.lt_trans h1 (hy.1 b hb)
    · exact h
    · refine List.sorted_cons.2 ⟨?_, ih hy.2⟩
      intro b hb
      rcases (mem_flatSetInsert x b ys).1 hb with hb | hb
      · rw [hb]
        exact Nat.lt_of_le_of_ne (Nat.le_of_not_lt h1) (fun e => h2 e.symm)
      · exact hy.1 b hb

theorem mem_getMentionedAccountsLoop (isCSC : AccountID → Bool) (x : AccountID) :
    ∀ (fields : List STBase) (list : List AccountID),
      x ∈ getMentionedAccountsLoop isCSC fields list ↔ x ∈ list ∨ Mentions isCSC fields x := by
  intro fields
  induction fields with
  | nil => intro list; simp [getMentionedAccountsLoop, Mentions]
  | cons f rest ih =>
    intro list
    cases f with
    | account isDefault value =>
      rw [getMentionedAccountsLoop, ih]
      cases isDefault with
      | true => simp [Mentions]
      | false =>
        simp only [Bool.not_false, if_true, mem_flatSetInsert, Mentions, List.mem_cons,
          STBase.account.injEq, true_and, reduceCtorEq, false_or]
        constructor
        · rintro ((h | h) | h | h)
          · exact Or.inr (Or.inl (Or.inl h))
          · exact Or.inl h
          · exact Or.inr (Or.inl (Or.inr h))
          · exact Or.inr (Or.inr h)
        · rintro (h | (h | h) | h)
          · exact Or.inl (Or.inr h)
          · exact Or.inl (Or.inl h)
          · exact Or.inr (Or.inl h)
          · exact Or.inr (Or.inr h)
    | amount issuer =>
      rw [getMentionedAccountsLoop, ih]
      cases hc : isCSC issuer with
      | true =>
        simp only [Bool.not_true, Bool.false_eq_true, if_false, Mentions, List.mem_cons,
          reduceCtorEq, false_or, STBase.amount.injEq]
        constructor
        · rintro (h | h | h)
          · exact Or.inl h
          · exact Or.inr (Or.inl h)
          · exact Or.inr (Or.inr ⟨Or.inr h.1, h.2⟩)
        · rintro (h | h | ⟨h | h, h'⟩)
          · exact Or.inl h
          · exact Or.inr (Or.inl h)
          · rw [h, hc] at h'
            cases h'
          · exact Or.inr (Or.inr ⟨h, h'⟩)
      | false =>
        simp only [Bool.not_false, if_true, mem_flatSetInsert, Mentions, List.mem_cons,
          reduceCtorEq, false_or, STBase.amount.injEq]
        constructor
        · rintro ((h | h) | h | h)
          · exact Or.inr (Or.inr ⟨Or.inl h, by rw [h]; exact hc⟩)
          · exact Or.inl h
          · exact Or.inr (Or.inl h)
          · exact Or.inr (Or.inr ⟨Or.inr h.1, h.2⟩)
        · rintro (h | h | ⟨h | h, h'⟩)
          · exact Or.inl (Or.inr h)
          · exact Or.inr (Or.inl h)
          · exact Or.inl (Or.inl h)
          · exact Or.inr (Or.inr ⟨h, h'⟩)
    | other =>
      rw [getMentionedAccountsLoop, ih]
      simp [Mentions]

theorem sorted_getMentionedAccountsLoop (isCSC : AccountID → Bool) :
    ∀ (fields : List STBase) (list : List AccountID), list.Sorted (· < ·) →
      (getMentionedAccountsLoop isCSC fields list).Sorted (· < ·) := by
  intro fields
  induction fields with
  | nil => intro list h; exact h
  | cons f rest ih =>
    intro list h
    cases f with
    | account isDefault value =>
      rw [getMentionedAccountsLoop]
      apply ih
      split_ifs
      · exact sorted_flatSetInsert value list h
      · exact h
    | amount issuer =>
      rw [getMentionedAccountsLoop]
      apply ih
      split_ifs
      · exact sorted_flatSetInsert issuer list h
      · exact h
    | other =>
      rw [getMentionedAccountsLoop]
      exact ih list h

theorem sorted_lt_nodup (l : List AccountID) (h : l.Sorted (· < ·)) : l.Nodup :=
  List.Pairwise.imp (fun hab => Nat.ne_of_lt hab) h

theorem invalid_type_ne_length (x : String) :
    "Invalid transaction type " ++ x ≠ "Transaction length invalid" := by
  intro h
  have h2 := congrArg (fun s : String => s.data.take 1) h
  simp only [String.data_append] at h2
  revert h2
  simp [List.take]

theorem getTxFormat_none {Obj Tmpl : Type} (E : TxEnv Obj Tmpl) (type : Nat)
    (h : E.findByType type = none) :
    getTxFormat E type =
      Except.error (Failure.runtimeError ("Invalid transaction type " ++ toString type)) := by
  simp [getTxFormat, h]

theorem getTxFormat_some {Obj Tmpl : Type} (E : TxEnv Obj Tmpl) (type : Nat)
    (format : TxFormat Tmpl) (h : E.findByType type = some format) :
    getTxFormat E type = Except.ok format := by
  simp [getTxFormat, h]

theorem constructTail_unknown {Obj Tmpl : Type} (E : TxEnv Obj Tmpl) (object : Obj)
    (t : Nat) (ht : E.getFieldU16 object = some t) (hf : E.findByType t = none) :
    constructTail E object =
      Except.error (Failure.runtimeError ("Invalid transaction type " ++ toString t)) := by
  simp [constructTail, ht, getTxFormat_none E t hf]

theorem constructTail_invalid {Obj Tmpl : Type} (E : TxEnv Obj Tmpl) (object : Obj)
    (t : Nat) (format : TxFormat Tmpl) (ht : E.getFieldU16 object = some t)
    (hf : E.findByType t = some format) (hv : (E.setType object format.elements).1 = false) :
    constructTail E object = Except.error (Failure.runtimeError "transaction not valid") := by
  simp [constructTail, ht, getTxFormat_some E t format hf, hv]

theorem constructTail_valid {Obj Tmpl : Type} (E : TxEnv Obj Tmpl) (object : Obj)
    (t : Nat) (format : TxFormat Tmpl) (ht : E.getFieldU16 object = some t)
    (hf : E.findByType t = some format) (hv : (E.setType object format.elements).1 = true) :
    constructTail E object =
      Except.ok (Envelope.mk (E.setType object format.elements).2 t
        (getHash E HashPrefix.transactionID (E.setType object format.elements).2)) := by
  simp [constructTail, ht, getTxFormat_some E t format hf, hv]

theorem constructTail_ne_length {Obj Tmpl : Type} (E : TxEnv Obj Tmpl) (object : Obj) :
    constructTail E object ≠ Except.error (Failure.runtimeError "Transaction length invalid") := by
  unfold constructTail
  cases ht : E.getFieldU16 object with
  | none => simp
  | some t =>
    cases hf : E.findByType t with
    | none =>
      simp only [getTxFormat_none E t hf]
      intro h
      simp only [Except.error.injEq, Failure.runtimeError.injEq] at h
      exact invalid_type_ne_length _ h
    | some format =>
      simp only [getTxFormat_some E t format hf]
      split_ifs
      · intro h
        simp only [Except.error.injEq, Failure.runtimeError.injEq] at h
        exact absurd h (by decide)
      · simp

theorem constructFromSerialIter_in_bounds {Obj Tmpl : Type} (E : TxEnv Obj Tmpl)
    (sit : SerialIter) (hmin : E.txMinSizeBytes ≤ sit.getBytesLeft)
    (hmax : sit.getBytesLeft ≤ E.txMaxSizeBytes) :
    constructFromSerialIter E sit =
      match E.set sit.remaining with
      | none => Except.error Failure.calleeThrew
      | some object => constructTail E object := by
  have h : ¬ (sit.getBytesLeft < E.txMinSizeBytes ∨ sit.getBytesLeft > E.txMaxSizeBytes) := by
    intro h
    rcases h with h | h
    · exact absurd hmin (Nat.not_le.mpr h)
    · exact absurd hmax (Nat.not_le.mpr h)
  unfold constructFromSerialIter
  simp only [h, if_false]

theorem constructTail_tid {Obj Tmpl : Type} (E : TxEnv Obj Tmpl) (object : Obj)
    (T : Envelope Obj) (h : constructTail E object = Except.ok T) :
    T.tid_ = getHash E HashPrefix.transactionID T.object ∧
      E.getFieldU16 object = some T.tx_type_ := by
  unfold constructTail at h
  cases ht : E.getFieldU16 object with
  | none => simp [ht] at h
  | some t =>
    cases hf : E.findByType t with
    | none => simp [ht, getTxFormat_none E t hf] at h
    | some format =>
      simp only [ht, getTxFormat_some E t format hf] at h
      split_ifs at h
      cases h
      exact ⟨rfl, rfl⟩

theorem conformsTo_false_of_missing (fields : List (Nat × Nat)) (template : List (Nat × Bool))
    (h : ∃ e ∈ template, e.2 = true ∧ ∀ f ∈ fields, f.1 ≠ e.1) :
    conformsTo fields template = false := by
  obtain ⟨e, he, hreq, hmiss⟩ := h
  unfold conformsTo
  rw [Bool.and_eq_false_iff]
  left
  rw [List.all_eq_false]
  refine ⟨e, he, ?_⟩
  have hany : fields.any (fun f => f.1 == e.1) = false := by
    rw [List.any_eq_false]
    intro f hf
    simpa using hmiss f hf
  simp [hreq, hany]

theorem conformsTo_false_of_extra (fields : List (Nat × Nat)) (template : List (Nat × Bool))
    (h : ∃ f ∈ fields, ∀ e ∈ template, e.1 ≠ f.1) :
    conformsTo fields template = false := by
  obtain ⟨f, hf, hout⟩ := h
  unfold conformsTo
  rw [Bool.and_eq_false_iff]
  right
  rw [List.all_eq_false]
  refine ⟨f, hf, ?_⟩
  have hany : template.any (fun e => e.1 == f.1) = false := by
    rw [List.any_eq_false]
    intro e he
    simpa using hout e he
  simp [hany]

theorem signerVerifies_true (C : Crypto) (d : Blob) (c : Bool) (a : AccountID) (s : Signer)
    (h : signerVerifies C d c a s = true) :
    ∃ spk sig, s.signingPubKey = some spk ∧ (C.publicKeyType spk).isSome = true ∧
      s.txnSignature = some sig ∧
      C.verify spk (C.finishMultiSigningData a d) sig c = some true := by
  unfold signerVerifies at h
  cases hk : s.signingPubKey with
  | none => simp [hk] at h
  | some spk =>
    cases hsig : s.txnSignature with
    | none => simp [hk, hsig] at h
    | some sig =>
      simp only [hk, hsig, Bool.and_eq_true, beq_iff_eq] at h
      exact ⟨spk, sig, rfl, h.1, rfl, h.2⟩

theorem loop_stops_at_offender (C : Crypto) (d : Blob) (src : AccountID) (c : Bool)
    (s : Signer) (a : AccountID) (post post' : List Signer) (hs : s.account = some a) :
    ∀ (pre : List Signer) (last : AccountID),
      (a = src ∨ signerVerifies C d c a s = false ∨
        ∃ b, predecessorAccount (some last) pre = some b ∧ a ≤ b) →
      checkMultiSignLoop C d src c last (pre ++ s :: post') =
        checkMultiSignLoop C d src c last (pre ++ s :: post) := by
  intro pre
  induction pre with
  | nil =>
    intro last hoff
    simp only [List.nil_append]
    rw [loop_cons_some C d src c last a s post' hs, loop_cons_some C d src c last a s post hs]
    by_cases h1 : a = src
    · simp [h1]
    by_cases h2 : last = a
    · simp [h1, h2]
    by_cases h3 : last > a
    · simp [h1, h2, h3]
    by_cases hv : signerVerifies C d c a s = true
    · exfalso
      rcases hoff with h | h | ⟨b, hb, hle⟩
      · exact h1 h
      · rw [hv] at h
        cases h
      · simp only [predecessorAccount, Option.some.injEq] at hb
        subst hb
        exact h3 (Nat.lt_of_le_of_ne hle (fun e => h2 e.symm))
    · simp [h1, h2, h3, hv]
  | cons p pre ih =>
    intro last hoff
    simp only [List.cons_append]
    cases hp : p.account with
    | none => rw [loop_cons_none C d src c last p _ hp, loop_cons_none C d src c last p _ hp]
    | some b =>
      rw [loop_cons_some C d src c last b p _ hp, loop_cons_some C d src c last b p _ hp]
      have hrec := ih b (by
        rcases hoff with h | h | ⟨b', hb', hle⟩
        · exact Or.inl h
        · exact Or.inr (Or.inl h)
        · refine Or.inr (Or.inr ⟨b', ?_, hle⟩)
          simpa [predecessorAccount, hp] using hb')
      rw [hrec]

theorem loop_reason_nonempty (C : Crypto) (d : Blob) (src : AccountID) (c : Bool) :
    ∀ (l : List Signer) (last : AccountID) (r : String),
      checkMultiSignLoop C d src c last l = some (false, r) → r ≠ "" := by
  intro l
  induction l with
  | nil => intro last r h; simp [checkMultiSignLoop] at h
  | cons s l ih =>
    intro last r h
    cases hs : s.account with
    | none => rw [loop_cons_none C d src c last s l hs] at h; cases h
    | some a =>
      rw [loop_cons_some C d src c last a s l hs] at h
      split_ifs at h
      · cases h; decide
      · cases h; decide
      · cases h; decide
      · exact ih a r h
      · cases h
        intro he
        have h2 := congrArg (fun s : String => s.data.take 1) he
        simp only [String.data_append] at h2
        revert h2
        simp [List.take]

theorem loop_true_reason (C : Crypto) (d : Blob) (src : AccountID) (c : Bool)
    (l : List Signer) (last : AccountID) (r : String)
    (h : checkMultiSignLoop C d src c last l = some (true, r)) : r = "" :=
  (accepts_of_loop_true C d src c l last r h).1

theorem checkMultiSign_pair (P : Protocol) (C : Crypto) (T : STTx) (p : Bool × String)
    (h : checkMultiSign P C T = some p) : p.1 = true ↔ p.2 = "" := by
  obtain ⟨b, r⟩ := p
  cases b with
  | true =>
    obtain ⟨_, _, l, src, _, _, _, _, hloop⟩ := checkMultiSign_true P C T r h
    have hr := loop_true_reason C _ src _ l 0 r hloop
    simp [hr]
  | false =>
    have hne : r ≠ "" := by
      unfold checkMultiSign at h
      split_ifs at h
      · cases h; decide
      · cases h; decide
      · cases hl : T.signers with
        | none => simp [hl] at h
        | some l =>
          simp only [hl] at h
          split_ifs at h
          · cases h; decide
          · cases hsrc : T.account with
            | none => simp [hsrc] at h
            | some src =>
              simp only [hsrc] at h
              exact loop_reason_nonempty C _ src _ l 0 r h
    simp [hne]

theorem checkSingleSign_pair (P : Protocol) (C : Crypto) (T : STTx) :
    (checkSingleSign P C T).1 = true ↔ (checkSingleSign P C T).2 = "" := by
  unfold checkSingleSign
  split_ifs
  · decide
  · dsimp only
    split_ifs
    · decide
    · decide

theorem chain_lt_pos (ids : List AccountID) (last : AccountID)
    (h : List.Chain (· < ·) last ids) : ∀ a ∈ ids, 0 < a := by
  induction ids generalizing last with
  | nil => intro a ha; cases ha
  | cons b ids ih =>
    intro a ha
    rw [List.chain_cons] at h
    rcases List.mem_cons.1 ha with ha | ha
    · rw [ha]
      exact Nat.lt_of_le_of_lt (Nat.zero_le last) h.1
    · exact ih b h.2 a ha

theorem checkInvariants_invariantFailed {Entry State : Type} (delta : List Entry)
    (checkers : List (InvariantChecker Entry State)) :
    checkInvariants delta checkers TER.invariantFailed = TER.invariantFailed := by
  induction checkers with
  | nil => rfl
  | cons c rest ih =>
    rw [checkInvariants]
    split_ifs <;> exact ih

theorem checkInvariants_append {Entry State : Type} (delta : List Entry)
    (pre rest : List (InvariantChecker Entry State)) (ter : TER) :
    checkInvariants delta (pre ++ rest) ter =
      checkInvariants delta rest (checkInvariants delta pre ter) := by
  induction pre generalizing ter with
  | nil => rfl
  | cons c pre ih =>
    rw [List.cons_append, checkInvariants, checkInvariants]
    split_ifs <;> exact ih _

theorem checkInvariants_cases {Entry State : Type} (delta : List Entry)
    (checkers : List (InvariantChecker Entry State)) (ter : TER) :
    checkInvariants delta checkers ter = ter ∨
      checkInvariants delta checkers ter = TER.invariantFailed := by
  induction checkers with
  | nil => exact Or.inl rfl
  | cons c rest ih =>
    rw [checkInvariants]
    split_ifs
    · exact ih
    · exact Or.inr (checkInvariants_invariantFailed delta rest)

theorem stage_foldl_base {Key Entry Flags : Type} [DecidableEq Key]
    (ms : List (Mutation Key Entry)) (ctx : ApplyContext Key Entry Flags) :
    (ms.foldl ApplyContext.stage ctx).base_ = ctx.base_ ∧
      (ms.foldl ApplyContext.stage ctx).flags_ = ctx.flags_ := by
  induction ms generalizing ctx with
  | nil => exact ⟨rfl, rfl⟩
  | cons m ms ih =>
    rw [List.foldl_cons]
    exact ⟨(ih (ctx.stage m)).1, (ih (ctx.stage m)).2⟩

theorem fullyCanonical_eq (P : Protocol) (T : STTx) :
    fullyCanonical P T = decide (T.flags &&& P.tfFullyCanonicalSig ≠ 0) := by
  unfold fullyCanonical
  by_cases h : T.flags &&& P.tfFullyCanonicalSig = 0 <;> simp [bne, h]

theorem constructTail_none {Obj Tmpl : Type} (E : TxEnv Obj Tmpl) (object : Obj)
    (ht : E.getFieldU16 object = none) :
    constructTail E object = Except.error Failure.calleeThrew := by
  simp [constructTail, ht]

/-- C1: a signer list that is not strictly ascending by account identifier (the
identifiers are `pre ++ a :: b :: post` with `b ≤ a`) is never accepted by
`checkMultiSign`, whatever the signatures; the function returns a pair with first
component false as soon as the source account can be read, and `checkSign (true)` on an
envelope with an empty `SigningPubKey` returns a pair with first component false. -/
theorem C1_unsorted_signers_rejected (P : Protocol) (C : Crypto) (T : STTx)
    (l : List Signer) (pre post : List AccountID) (a b : AccountID)
    (hl : T.signers = some l)
    (hids : l.map Signer.account = (pre ++ a :: b :: post).map some) (hle : b ≤ a) :
    (∀ r, checkMultiSign P C T ≠ some (true, r)) ∧
    (T.account ≠ none → ∃ r, checkMultiSign P C T = some (false, r)) ∧
    (T.signingPubKey = some [] → (checkSign P C true T).1 = false) := by
  have hnt := checkMultiSign_not_true_of_descent P C T l pre post a b hl hids hle
  refine ⟨hnt, ?_, ?_⟩
  · intro hsrc
    obtain ⟨p, hp⟩ := checkMultiSign_returns P C T l hl (map_some_readable l _ hids) hsrc
    obtain ⟨b', r⟩ := p
    cases b' with
    | false => exact ⟨r, hp⟩
    | true => exact absurd hp (hnt r)
  · intro hk
    rw [checkSign_multi P C T hk]
    cases hm : checkMultiSign P C T with
    | none => rfl
    | some p =>
      obtain ⟨b', r⟩ := p
      cases b' with
      | false => rfl
      | true => exact absurd hm (hnt r)

/-- Witness of C1: signers 3, 1, 2 with valid signatures are rejected. -/
theorem C1_unsorted_signers_rejected_witness :
    (∀ r, checkMultiSign sampleProtocol sampleCrypto
      (sampleMulti [sampleSigner 3, sampleSigner 1, sampleSigner 2]) ≠ some (true, r)) ∧
    (∃ r, checkMultiSign sampleProtocol sampleCrypto
      (sampleMulti [sampleSigner 3, sampleSigner 1, sampleSigner 2]) = some (false, r)) ∧
    (checkSign sampleProtocol sampleCrypto true
      (sampleMulti [sampleSigner 3, sampleSigner 1, sampleSigner 2])).1 = false :=
  have h := C1_unsorted_signers_rejected sampleProtocol sampleCrypto
    (sampleMulti [sampleSigner 3, sampleSigner 1, sampleSigner 2])
    [sampleSigner 3, sampleSigner 1, sampleSigner 2] [] [2] 3 1 rfl rfl (by decide)
  ⟨h.1, h.2.1 (by decide), h.2.2 rfl⟩

/-- C2: a signer whose account identifier is the source account of the transaction makes
`checkMultiSign` reject, whatever the signatures: it never accepts, it returns a pair with
first component false when every signer account can be read, `checkSign (true)` on an
empty `SigningPubKey` returns false, and when the signers before it pass the scan (it is
the first offending entry) and the pre-checks pass, the result is exactly
`(false, "Invalid multisigner.")`. -/
theorem C2_source_account_signer_rejected (P : Protocol) (C : Crypto) (T : STTx)
    (pre post : List Signer) (s : Signer) (src : AccountID)
    (hl : T.signers = some (pre ++ s :: post)) (hsrc : T.account = some src)
    (hs : s.account = some src) :
    (∀ r, checkMultiSign P C T ≠ some (true, r)) ∧
    ((∀ s' ∈ pre ++ s :: post, s'.account ≠ none) →
      ∃ r, checkMultiSign P C T = some (false, r)) ∧
    (T.signingPubKey = some [] → (checkSign P C true T).1 = false) ∧
    (T.signersPresent = true → T.txnSignaturePresent = false →
      P.minMultiSigners ≤ (pre ++ s :: post).length →
      (pre ++ s :: post).length ≤ P.maxMultiSigners →
      ScanAccepts C T.multiSigningDataStart src (fullyCanonical P T) 0 pre →
      checkMultiSign P C T = some (false, "Invalid multisigner.")) := by
  have hnt := checkMultiSign_not_true_of_source P C T pre post s src hl hsrc hs
  refine ⟨hnt, ?_, ?_, ?_⟩
  · intro hacc
    obtain ⟨p, hp⟩ := checkMultiSign_returns P C T _ hl hacc (by simp [hsrc])
    obtain ⟨b', r⟩ := p
    cases b' with
    | false => exact ⟨r, hp⟩
    | true => exact absurd hp (hnt r)
  · intro hk
    rw [checkSign_multi P C T hk]
    cases hm : checkMultiSign P C T with
    | none => rfl
    | some p =>
      obtain ⟨b', r⟩ := p
      cases b' with
      | false => rfl
      | true => exact absurd hm (hnt r)
  · intro hp hsig hmin hmax hacc
    obtain ⟨ids, hmap, hchain, hnot, hver⟩ := hacc
    rw [checkMultiSign_eq_loop P C T _ src hp hsig hl hmin hmax hsrc,
      loop_append_accepts C _ src _ (s :: post) pre 0 ids hmap hchain hnot hver,
      loop_cons_some C _ src _ _ src s post hs]
    simp

/-- Witness of C2: source account 100 listed as the third signer after signers 1 and 2. -/
theorem C2_source_account_signer_rejected_witness :
    (∀ r, checkMultiSign sampleProtocol sampleCrypto
      (sampleMulti [sampleSigner 1, sampleSigner 2, sampleSigner 100, sampleSigner 3]) ≠
        some (true, r)) ∧
    (∃ r, checkMultiSign sampleProtocol sampleCrypto
      (sampleMulti [sampleSigner 1, sampleSigner 2, sampleSigner 100, sampleSigner 3]) =
        some (false, r)) ∧
    (checkSign sampleProtocol sampleCrypto true
      (sampleMulti [sampleSigner 1, sampleSigner 2, sampleSigner 100, sampleSigner 3])).1 =
        false ∧
    checkMultiSign sampleProtocol sampleCrypto
      (sampleMulti [sampleSigner 1, sampleSigner 2, sampleSigner 100, sampleSigner 3]) =
        some (false, "Invalid multisigner.") :=
  have h := C2_source_account_signer_rejected sampleProtocol sampleCrypto
    (sampleMulti [sampleSigner 1, sampleSigner 2, sampleSigner 100, sampleSigner 3])
    [sampleSigner 1, sampleSigner 2] [sampleSigner 3] (sampleSigner 100) 100 rfl rfl rfl
  ⟨h.1, h.2.1 (by decide), h.2.2.1 rfl,
    h.2.2.2 rfl rfl (by decide) (by decide)
      ⟨[1, 2], rfl, by simp, by decide, by decide⟩⟩

/-- C3 as stated fails: the signers 2, 1, 2 pass the pre-checks, differ from the source
account 100, all carry valid signatures and repeat the identifier 2, yet the result is
`(false, "Unsorted Signers array.")`. -/
theorem C3_counterexample :
    (sampleMulti [sampleSigner 2, sampleSigner 1, sampleSigner 2]).signersPresent = true ∧
    (sampleMulti [sampleSigner 2, sampleSigner 1, sampleSigner 2]).txnSignaturePresent = false ∧
    (sampleMulti [sampleSigner 2, sampleSigner 1, sampleSigner 2]).signers =
      some [sampleSigner 2, sampleSigner 1, sampleSigner 2] ∧
    sampleProtocol.minMultiSigners ≤ 3 ∧ 3 ≤ sampleProtocol.maxMultiSigners ∧
    (sampleMulti [sampleSigner 2, sampleSigner 1, sampleSigner 2]).account = some 100 ∧
    (∀ a ∈ [2, 1, 2], a ≠ 100 ∧
      signerVerifies sampleCrypto [7] (fullyCanonical sampleProtocol
        (sampleMulti [sampleSigner 2, sampleSigner 1, sampleSigner 2])) a (sampleSigner a) = true) ∧
    ¬ ([2, 1, 2] : List AccountID).Nodup ∧
    checkMultiSign sampleProtocol sampleCrypto
      (sampleMulti [sampleSigner 2, sampleSigner 1, sampleSigner 2]) =
        some (false, "Unsorted Signers array.") ∧
    checkSign sampleProtocol sampleCrypto true
      (sampleMulti [sampleSigner 2, sampleSigner 1, sampleSigner 2]) ≠
        (false, "Duplicate Signers not allowed.") := by
  refine ⟨rfl, rfl, rfl, by decide, by decide, rfl, by decide, by decide, by decide, by decide⟩

/-- C3, amended: for every envelope that passes the multi-sign pre-checks (Signers
present, no TxnSignature, count within bounds), in whose signer list some signer repeats
the account identifier of the signer listed directly before it, the signers up to and
including that earlier one being strictly ascending by account identifier, different from
the source account and validly signed, `checkMultiSign` (and `checkSign (true)` with an
empty `SigningPubKey`) returns exactly `(false, "Duplicate Signers not allowed.")`. -/
theorem C3_duplicate_signers_rejected (P : Protocol) (C : Crypto) (T : STTx)
    (pre post : List Signer) (s1 s2 : Signer) (ids : List AccountID) (x src : AccountID)
    (hp : T.signersPresent = true) (hsig : T.txnSignaturePresent = false)
    (hl : T.signers = some (pre ++ s1 :: s2 :: post))
    (hmin : P.minMultiSigners ≤ (pre ++ s1 :: s2 :: post).length)
    (hmax : (pre ++ s1 :: s2 :: post).length ≤ P.maxMultiSigners)
    (hsrc : T.account = some src) (hids : pre.map Signer.account = ids.map some)
    (h1 : s1.account = some x) (h2 : s2.account = some x)
    (hasc : List.Chain' (· < ·) (ids ++ [x])) (hne : src ∉ ids ++ [x])
    (hver : ∀ s ∈ pre ++ [s1], ∀ a, s.account = some a →
      signerVerifies C T.multiSigningDataStart (fullyCanonical P T) a s = true) :
    checkMultiSign P C T = some (false, "Duplicate Signers not allowed.") ∧
    (T.signingPubKey = some [] →
      checkSign P C true T = (false, "Duplicate Signers not allowed.")) := by
  have hres : checkMultiSign P C T = some (false, "Duplicate Signers not allowed.") := by
    rw [checkMultiSign_eq_loop P C T _ src hp hsig hl hmin hmax hsrc]
    exact loop_adjacent_duplicate C _ src _ pre post s1 s2 ids x hids h1 h2 hasc hne hver
  refine ⟨hres, ?_⟩
  intro hk
  rw [checkSign_multi P C T hk, hres]

/-- Witness of C3: signers 1 < 2 < 3 with 2 listed twice. -/
theorem C3_duplicate_signers_rejected_witness :
    checkMultiSign sampleProtocol sampleCrypto
      (sampleMulti [sampleSigner 1, sampleSigner 2, sampleSigner 2, sampleSigner 3]) =
        some (false, "Duplicate Signers not allowed.") ∧
    checkSign sampleProtocol sampleCrypto true
      (sampleMulti [sampleSigner 1, sampleSigner 2, sampleSigner 2, sampleSigner 3]) =
        (false, "Duplicate Signers not allowed.") :=
  have h := C3_duplicate_signers_rejected sampleProtocol sampleCrypto
    (sampleMulti [sampleSigner 1, sampleSigner 2, sampleSigner 2, sampleSigner 3])
    [sampleSigner 1] [sampleSigner 3] (sampleSigner 2) (sampleSigner 2) [1] 2 100
    rfl rfl rfl (by decide) (by decide) rfl rfl rfl rfl (by simp) (by decide) (by decide)
  ⟨h.1, h.2 rfl⟩

/-- C4: a signer array with fewer than `minMultiSigners` or more than
`maxMultiSigners` entries makes `checkMultiSign` return false; when the `Signers` field
is present and `TxnSignature` is absent the result is exactly
`(false, "Invalid Signers array size.")`, whatever the entries are (no signer is
examined: the result does not change when the entries are replaced by any others out of
bounds); an array whose length lies within the bounds, the bounds included, is never
rejected with that reason. -/
theorem C4_signer_count_bounds (P : Protocol) (C : Crypto) :
    (∀ (T : STTx) (l : List Signer), T.signers = some l →
      (l.length < P.minMultiSigners ∨ l.length > P.maxMultiSigners) →
      (∃ r, checkMultiSign P C T = some (false, r)) ∧
      (T.signersPresent = true → T.txnSignaturePresent = false →
        checkMultiSign P C T = some (false, "Invalid Signers array size."))) ∧
    (∀ (T : STTx) (l l' : List Signer), T.signers = some l →
      (l.length < P.minMultiSigners ∨ l.length > P.maxMultiSigners) →
      (l'.length < P.minMultiSigners ∨ l'.length > P.maxMultiSigners) →
      checkMultiSign P C { T with signers := some l' } = checkMultiSign P C T) ∧
    (∀ (T : STTx) (l : List Signer), T.signers = some l →
      P.minMultiSigners ≤ l.length → l.length ≤ P.maxMultiSigners →
      checkMultiSign P C T ≠ some (false, "Invalid Signers array size.")) := by
  refine ⟨?_, ?_, ?_⟩
  · intro T l hl hb
    have hsize : ∀ (hp : T.signersPresent = true) (hsig : T.txnSignaturePresent = false),
        checkMultiSign P C T = some (false, "Invalid Signers array size.") := by
      intro hp hsig
      simp [checkMultiSign, hp, hsig, hl, hb]
    refine ⟨?_, hsize⟩
    cases hp : T.signersPresent with
    | false => exact ⟨"Empty SigningPubKey.", by simp [checkMultiSign, hp]⟩
    | true =>
      cases hsig : T.txnSignaturePresent with
      | true =>
        exact ⟨"Cannot both single- and multi-sign.", by simp [checkMultiSign, hp, hsig]⟩
      | false => exact ⟨_, hsize hp hsig⟩
  · intro T l l' hl hb hb'
    simp [checkMultiSign, hl, hb, hb']
  · intro T l hl hmin hmax
    have h1 : ¬ l.length < P.minMultiSigners := Nat.not_lt.mpr hmin
    have h2 : ¬ l.length > P.maxMultiSigners := Nat.not_lt.mpr hmax
    unfold checkMultiSign
    rw [hl]
    simp only [h1, h2, decide_False, Bool.or_self, Bool.false_eq_true, if_false]
    split_ifs
    · decide
    · decide
    · cases T.account with
      | none => simp
      | some src => exact loop_reason_ne_size C _ src _ l 0

/-- Witness of C4 with the bounds `[1, 8]`: zero signers and nine signers are rejected,
one signer and eight signers are not rejected for their count. -/
theorem C4_signer_count_bounds_witness :
    checkMultiSign sampleProtocol sampleCrypto (sampleMulti []) =
      some (false, "Invalid Signers array size.") ∧
    checkMultiSign sampleProtocol sampleCrypto sampleNine =
      some (false, "Invalid Signers array size.") ∧
    checkMultiSign sampleProtocol sampleCrypto
      { sampleNine with signers := some (List.replicate 9 (Signer.mk none none none)) } =
      checkMultiSign sampleProtocol sampleCrypto sampleNine ∧
    checkMultiSign sampleProtocol sampleCrypto (sampleMulti [sampleSigner 1]) ≠
      some (false, "Invalid Signers array size.") ∧
    checkMultiSign sampleProtocol sampleCrypto
      (sampleMulti ((List.range 8).map (fun i => sampleSigner (i + 1)))) ≠
      some (false, "Invalid Signers array size.") :=
  have h := C4_signer_count_bounds sampleProtocol sampleCrypto
  ⟨(h.1 (sampleMulti []) [] rfl (Or.inl (by decide))).2 rfl rfl,
    (h.1 sampleNine _ rfl (Or.inr (by decide))).2 rfl rfl,
    h.2.1 sampleNine _ (List.replicate 9 (Signer.mk none none none)) rfl
      (Or.inr (by decide)) (Or.inr (by decide)),
    h.2.2 (sampleMulti [sampleSigner 1]) _ rfl (by decide) (by decide),
    h.2.2 (sampleMulti ((List.range 8).map (fun i => sampleSigner (i + 1)))) _ rfl
      (by decide) (by decide)⟩

/-- C5: an envelope with a non-empty `SigningPubKey` and a `Signers` field is rejected
by `checkSign` with `(false, "Cannot both single- and multi-sign.")` for both values of
`allowMultiSign`, whatever the primitives, the signature, the key and the signers are. -/
theorem C5_single_and_multi_exclusive (P : Protocol) (C : Crypto) (allowMultiSign : Bool)
    (T : STTx) (spk : Blob) (hk : T.signingPubKey = some spk) (hne : spk ≠ [])
    (hs : T.signersPresent = true) :
    checkSign P C allowMultiSign T = (false, "Cannot both single- and multi-sign.") := by
  have hsingle : checkSingleSign P C T = (false, "Cannot both single- and multi-sign.") := by
    simp [checkSingleSign, hs]
  cases allowMultiSign with
  | false => rw [checkSign_false, hsingle]
  | true => rw [checkSign_single P C T spk hk hne, hsingle]

/-- Witness of C5 on `sampleBoth`, for both values of `allowMultiSign`. -/
theorem C5_single_and_multi_exclusive_witness :
    checkSign sampleProtocol sampleCrypto true sampleBoth =
      (false, "Cannot both single- and multi-sign.") ∧
    checkSign sampleProtocol sampleCrypto false sampleBoth =
      (false, "Cannot both single- and multi-sign.") :=
  ⟨C5_single_and_multi_exclusive sampleProtocol sampleCrypto true sampleBoth sampleKey rfl
      (by decide) rfl,
    C5_single_and_multi_exclusive sampleProtocol sampleCrypto false sampleBoth sampleKey rfl
      (by decide) rfl⟩

/-- C6 as stated fails: the signers 0, 2, 3 form a well-formed list (strictly ascending,
no duplicate, none equal to the source account 100, three entries within `[1, 8]`) with
valid signatures, yet `checkSign (true)` returns
`(false, "Duplicate Signers not allowed.")`. -/
theorem C6_counterexample :
    (sampleMulti [sampleSigner 0, sampleSigner 2, sampleSigner 3]).signingPubKey = some [] ∧
    (sampleMulti [sampleSigner 0, sampleSigner 2, sampleSigner 3]).signersPresent = true ∧
    (sampleMulti [sampleSigner 0, sampleSigner 2, sampleSigner 3]).txnSignaturePresent = false ∧
    (sampleMulti [sampleSigner 0, sampleSigner 2, sampleSigner 3]).signers =
      some [sampleSigner 0, sampleSigner 2, sampleSigner 3] ∧
    (sampleMulti [sampleSigner 0, sampleSigner 2, sampleSigner 3]).account = some 100 ∧
    List.Chain' (· < ·) ([0, 2, 3] : List AccountID) ∧
    ([0, 2, 3] : List AccountID).Nodup ∧ (100 : AccountID) ∉ ([0, 2, 3] : List AccountID) ∧
    sampleProtocol.minMultiSigners ≤ 3 ∧ 3 ≤ sampleProtocol.maxMultiSigners ∧
    (∀ a ∈ [0, 2, 3],
      signerVerifies sampleCrypto [7] (fullyCanonical sampleProtocol
        (sampleMulti [sampleSigner 0, sampleSigner 2, sampleSigner 3])) a (sampleSigner a) = true) ∧
    checkSign sampleProtocol sampleCrypto true
      (sampleMulti [sampleSigner 0, sampleSigner 2, sampleSigner 3]) =
        (false, "Duplicate Signers not allowed.") := by
  refine ⟨rfl, rfl, rfl, rfl, rfl, by simp, by decide, by decide, by decide, by decide,
    by decide, by decide⟩

/-- C6, amended: for every envelope with an empty `SigningPubKey`, `Signers` present and
`TxnSignature` absent, whose signer list is strictly ascending by account identifier,
has no entry equal to the source account and none with the all-zero identifier, has a
length within `[minMultiSigners, maxMultiSigners]`, and in which every signer has a
recognized key type and a signature that verifies over that signer's multi-signing
data, `checkSign (true)` returns `(true, "")`. -/
theorem C6_well_formed_multi_sign_accepted (P : Protocol) (C : Crypto) (T : STTx)
    (l : List Signer) (ids : List AccountID) (src : AccountID)
    (hk : T.signingPubKey = some []) (hp : T.signersPresent = true)
    (hsig : T.txnSignaturePresent = false) (hl : T.signers = some l)
    (hsrc : T.account = some src) (hids : l.map Signer.account = ids.map some)
    (hasc : List.Chain' (· < ·) ids) (hne : src ∉ ids) (hzero : (0 : AccountID) ∉ ids)
    (hmin : P.minMultiSigners ≤ l.length) (hmax : l.length ≤ P.maxMultiSigners)
    (hver : ∀ s ∈ l, ∀ a, s.account = some a →
      signerVerifies C T.multiSigningDataStart (fullyCanonical P T) a s = true) :
    checkSign P C true T = (true, "") := by
  rw [checkSign_multi P C T hk, checkMultiSign_eq_loop P C T l src hp hsig hl hmin hmax hsrc,
    loop_true_of_accepts C _ src _ l 0 ⟨ids, hids, chain_lt_zero ids hasc hzero, hne, hver⟩]

/-- Witness of C6: three signers 1 < 2 < 3 with the bounds `[1, 8]`. -/
theorem C6_well_formed_multi_sign_accepted_witness :
    checkSign sampleProtocol sampleCrypto true
      (sampleMulti [sampleSigner 1, sampleSigner 2, sampleSigner 3]) = (true, "") :=
  C6_well_formed_multi_sign_accepted sampleProtocol sampleCrypto
    (sampleMulti [sampleSigner 1, sampleSigner 2, sampleSigner 3])
    [sampleSigner 1, sampleSigner 2, sampleSigner 3] [1, 2, 3] 100 rfl rfl rfl rfl rfl rfl
    (by simp) (by decide) (by decide) (by decide) (by decide) (by decide)

/-- C8: `checkSign` always returns a pair: its value is the internal-failure pair, the
value of `checkSingleSign`, or the pair returned by `checkMultiSign`; when the read of
`SigningPubKey` for the dispatch throws, or when the selected verifier throws, the
result is `(false, "Internal signature check failure.")`. -/
theorem C8_checkSign_total (P : Protocol) (C : Crypto) (allowMultiSign : Bool) (T : STTx) :
    (checkSign P C allowMultiSign T = (false, "Internal signature check failure.") ∨
      checkSign P C allowMultiSign T = checkSingleSign P C T ∨
      checkMultiSign P C T = some (checkSign P C allowMultiSign T)) ∧
    (T.signingPubKey = none →
      checkSign P C true T = (false, "Internal signature check failure.")) ∧
    (T.signingPubKey = some [] → checkMultiSign P C T = none →
      checkSign P C true T = (false, "Internal signature check failure.")) := by
  refine ⟨?_, ?_, ?_⟩
  · cases allowMultiSign with
    | false => exact Or.inr (Or.inl (checkSign_false P C T))
    | true =>
      cases hk : T.signingPubKey with
      | none => exact Or.inl (by simp [checkSign, checkSignTry, hk])
      | some spk =>
        cases spk with
        | nil =>
          rw [checkSign_multi P C T hk]
          cases hm : checkMultiSign P C T with
          | none => exact Or.inl rfl
          | some p => exact Or.inr (Or.inr rfl)
        | cons x xs => exact Or.inr (Or.inl (checkSign_single P C T _ hk (by simp)))
  · intro hk
    simp [checkSign, checkSignTry, hk]
  · intro hk hm
    rw [checkSign_multi P C T hk, hm]

/-- Witness of C8: a throwing dispatch read and a throwing `checkMultiSign` both end in
the internal-failure pair. -/
theorem C8_checkSign_total_witness :
    checkSign sampleProtocol sampleCrypto true sampleNoKey =
      (false, "Internal signature check failure.") ∧
    checkSign sampleProtocol sampleCrypto true sampleBadSigner =
      (false, "Internal signature check failure.") :=
  ⟨(C8_checkSign_total sampleProtocol sampleCrypto true sampleNoKey).2.1 rfl,
    (C8_checkSign_total sampleProtocol sampleCrypto true sampleBadSigner).2.2 rfl
      (by decide)⟩

/-- C9: with `allowMultiSign = false`, `checkSign` is `checkSingleSign`, so an envelope
with a `Signers` field is not accepted and neither is one with an empty `SigningPubKey`
(the empty byte string having no recognized key type); with `allowMultiSign = true`,
`checkSign` is what `checkMultiSign` returns when `SigningPubKey` is empty and is
`checkSingleSign` when it is not empty. -/
theorem C9_checkSign_dispatch (P : Protocol) (C : Crypto) (T : STTx) :
    checkSign P C false T = checkSingleSign P C T ∧
    (T.signersPresent = true → (checkSign P C false T).1 = false) ∧
    (T.signingPubKey = some [] → C.publicKeyType [] = none →
      (checkSign P C false T).1 = false) ∧
    (T.signingPubKey = some [] → ∀ p, checkMultiSign P C T = some p →
      checkSign P C true T = p) ∧
    (∀ spk, T.signingPubKey = some spk → spk ≠ [] →
      checkSign P C true T = checkSingleSign P C T) := by
  refine ⟨checkSign_false P C T, ?_, ?_, ?_, ?_⟩
  · intro hs
    rw [checkSign_false]
    simp [checkSingleSign, hs]
  · intro hk hpk
    rw [checkSign_false]
    cases hs : T.signersPresent with
    | true => simp [checkSingleSign, hs]
    | false =>
      rw [checkSingleSign_no_signers P C T hs]
      have : singleSignTry P C T = some false := by
        simp [singleSignTry, hk, hpk]
      simp [this]
  · intro hk p hm
    rw [checkSign_multi P C T hk, hm]
  · intro spk hk hne
    exact checkSign_single P C T spk hk hne

/-- Witness of C9: the well-formed multi-signed sample with signers 1, 2, 3 is accepted
with `allowMultiSign = true` and not accepted with `allowMultiSign = false`. -/
theorem C9_checkSign_dispatch_witness :
    (checkSign sampleProtocol sampleCrypto false
      (sampleMulti [sampleSigner 1, sampleSigner 2, sampleSigner 3])).1 = false ∧
    checkSign sampleProtocol sampleCrypto true
      (sampleMulti [sampleSigner 1, sampleSigner 2, sampleSigner 3]) = (true, "") ∧
    checkSign sampleProtocol sampleCrypto true sampleSingle =
      checkSingleSign sampleProtocol sampleCrypto sampleSingle :=
  have h := C9_checkSign_dispatch sampleProtocol sampleCrypto
    (sampleMulti [sampleSigner 1, sampleSigner 2, sampleSigner 3])
  ⟨h.2.2.1 rfl rfl, h.2.2.2.1 rfl (true, "") (by decide),
    (C9_checkSign_dispatch sampleProtocol sampleCrypto sampleSingle).2.2.2.2 sampleKey rfl
      (by decide)⟩

/-- C10: `passesLocalChecks` returns true exactly when `isMemoOkay` returns true, no
field of the object is an account field with a default value, and the object is not a
pseudo-transaction; when it returns false the reason is that of the first failing check
in the order memo (the reason set by `isMemoOkay`), account field
(`"An account field is invalid."`), pseudo-transaction
(`"Cannot submit pseudo transactions."`). -/
theorem C10_passesLocalChecks (P : Protocol) (st : STObject) (reason : String)
    (config : Config) :
    ((passesLocalChecks P st reason config).1 = true ↔
      (isMemoOkay st reason config).1 = true ∧
      (∀ f ∈ st.fields, ∀ v, f ≠ STBase.account true v) ∧ isPseudoTx P st = false) ∧
    ((isMemoOkay st reason config).1 = false →
      passesLocalChecks P st reason config = (false, (isMemoOkay st reason config).2)) ∧
    ((isMemoOkay st reason config).1 = true →
      (∃ f ∈ st.fields, ∃ v, f = STBase.account true v) →
      passesLocalChecks P st reason config = (false, "An account field is invalid.")) ∧
    ((isMemoOkay st reason config).1 = true →
      (∀ f ∈ st.fields, ∀ v, f ≠ STBase.account true v) → isPseudoTx P st = true →
      passesLocalChecks P st reason config = (false, "Cannot submit pseudo transactions.")) := by
  have hacc := accountFieldsOkay_iff st.fields
  unfold passesLocalChecks isAccountFieldOkay
  cases hm : isMemoOkay st reason config with
  | mk b r =>
    cases b with
    | false => simp
    | true =>
      by_cases ha : accountFieldsOkay st.fields = true
      · have hall := hacc.1 ha
        cases hps : isPseudoTx P st with
        | true =>
          simp only [ha, hps]
          refine ⟨by simp, by simp, ?_, by simp⟩
          rintro _ ⟨f, hf, v, hv⟩
          exact absurd hv (hall f hf v)
        | false =>
          simp only [ha, hps]
          refine ⟨by simpa using hall, by simp, ?_, by simp⟩
          rintro _ ⟨f, hf, v, hv⟩
          exact absurd hv (hall f hf v)
      · have hnall : ¬ ∀ f ∈ st.fields, ∀ v, f ≠ STBase.account true v :=
          fun h => ha (hacc.2 h)
        have ha' : accountFieldsOkay st.fields = false := by simpa using ha
        simp only [ha']
        refine ⟨by simpa using fun h => absurd h hnall, by simp, by simp, ?_⟩
        intro _ h
        exact absurd h hnall

/-- Witness of C10: one object passes, and each of the three checks fails on one
object with its own reason, the memo check first. -/
theorem C10_passesLocalChecks_witness :
    (passesLocalChecks sampleProtocol sampleObject "" (Config.mk 1024)).1 = true ∧
    passesLocalChecks sampleProtocol sampleBadMemo "" (Config.mk 1024) =
      (false, (isMemoOkay sampleBadMemo "" (Config.mk 1024)).2) ∧
    passesLocalChecks sampleProtocol sampleDefaultAccount "" (Config.mk 1024) =
      (false, "An account field is invalid.") ∧
    passesLocalChecks sampleProtocol samplePseudo "" (Config.mk 1024) =
      (false, "Cannot submit pseudo transactions.") :=
  ⟨(C10_passesLocalChecks sampleProtocol sampleObject "" (Config.mk 1024)).1.2
      ⟨by decide, by simp [sampleObject], by decide⟩,
    (C10_passesLocalChecks sampleProtocol sampleBadMemo "" (Config.mk 1024)).2.1 (by decide),
    (C10_passesLocalChecks sampleProtocol sampleDefaultAccount "" (Config.mk 1024)).2.2.1
      (by decide) ⟨STBase.account true 0, by decide, 0, rfl⟩,
    (C10_passesLocalChecks sampleProtocol samplePseudo "" (Config.mk 1024)).2.2.2
      (by decide) (by simp [samplePseudo]) (by decide)⟩

/-- C11: when the `Memos` array is present and its serialized length is strictly greater
than `MAX_MEMO_SIZE`, `passesLocalChecks` returns false with the reason
`"Max Memo size exceded, max memo = "` followed by the decimal `MAX_MEMO_SIZE`, whatever
the entries of the array, the other fields and the incoming reason are; when the length
is at most `MAX_MEMO_SIZE`, the bound included, `isMemoOkay` goes on to the scan of the
entries and `passesLocalChecks` does not return that reason. -/
theorem C11_memo_size_limit (P : Protocol) (st : STObject) (reason : String)
    (config : Config) (memos : Memos) (hm : st.memos = some memos) :
    (memos.serializedLength > config.MAX_MEMO_SIZE →
      passesLocalChecks P st reason config =
        (false, "Max Memo size exceded, max memo = " ++ toString config.MAX_MEMO_SIZE)) ∧
    (memos.serializedLength ≤ config.MAX_MEMO_SIZE →
      isMemoOkay st reason config = memoEntriesOkay reason memos.entries ∧
      passesLocalChecks P st reason config ≠
        (false, "Max Memo size exceded, max memo = " ++ toString config.MAX_MEMO_SIZE)) := by
  constructor
  · intro hgt
    simp [passesLocalChecks, isMemoOkay, hm, hgt]
  · intro hle
    have hnot : ¬ memos.serializedLength > config.MAX_MEMO_SIZE := Nat.not_lt.mpr hle
    have heq : isMemoOkay st reason config = memoEntriesOkay reason memos.entries := by
      simp [isMemoOkay, hm, hnot]
    refine ⟨heq, ?_⟩
    intro hres
    have hhead := memoSizeReason_head config
    unfold memoSizeReason at hhead
    unfold passesLocalChecks at hres
    rw [heq] at hres
    cases he : memoEntriesOkay reason memos.entries with
    | mk b r =>
      rw [he] at hres
      cases b with
      | false =>
        simp only [Prod.mk.injEq, true_and] at hres
        rw [← hres] at hhead
        exact memoEntriesOkay_reason reason memos.entries r he hhead
      | true =>
        simp only [] at hres
        split_ifs at hres
        · simp only [Prod.mk.injEq, true_and] at hres
          rw [← hres] at hhead
          exact absurd hhead (by decide)
        · simp only [Prod.mk.injEq, true_and] at hres
          rw [← hres] at hhead
          exact absurd hhead (by decide)
        · simp at hres

/-- Witness of C11 with `MAX_MEMO_SIZE = 1024`: 1025 bytes are rejected with the size
reason, 1024 bytes are not. -/
theorem C11_memo_size_limit_witness :
    passesLocalChecks sampleProtocol (sampleMemoObject 1025) "" (Config.mk 1024) =
      (false, "Max Memo size exceded, max memo = 1024") ∧
    passesLocalChecks sampleProtocol (sampleMemoObject 1024) "" (Config.mk 1024) ≠
      (false, "Max Memo size exceded, max memo = " ++ toString 1024) :=
  ⟨(C11_memo_size_limit sampleProtocol (sampleMemoObject 1025) "" (Config.mk 1024) _ rfl).1
      (by decide),
    ((C11_memo_size_limit sampleProtocol (sampleMemoObject 1024) "" (Config.mk 1024) _ rfl).2
      (by decide)).2⟩

/-- C12: `isMemoOkay` returns true exactly when the `Memos` field is absent, or its
serialized size is at most `MAX_MEMO_SIZE` and every element of the array is an object
named `Memo` whose sub-fields are all `MemoType`, `MemoData` or `MemoFormat`, all
decode as hex and, except for `MemoData`, hold only whitelisted bytes; the table
`allowedSymbols` is the whitelist of digits, ASCII letters and the listed symbols, it
has 85 entries, and it rejects every byte from `0x80` on, the space and the control
bytes. -/
theorem C12_isMemoOkay_iff (st : STObject) (reason : String) (config : Config) :
    ((isMemoOkay st reason config).1 = true ↔
      st.memos = none ∨
      ∃ memos, st.memos = some memos ∧ memos.serializedLength ≤ config.MAX_MEMO_SIZE ∧
        ∀ e ∈ memos.entries, MemoEntryWellFormed e) ∧
    (∀ c, allowedSymbols c = urlSafeByte c) ∧
    ((List.range 256).filter allowedSymbols).length = 85 ∧
    (∀ c, 128 ≤ c → allowedSymbols c = false) ∧
    (∀ c, c ≤ 32 → allowedSymbols c = false) := by
  refine ⟨?_, allowedSymbols_eq_urlSafeByte, allowedSymbols_count, ?_, ?_⟩
  · unfold isMemoOkay
    cases hm : st.memos with
    | none => simp
    | some memos =>
      by_cases hgt : memos.serializedLength > config.MAX_MEMO_SIZE
      · simp only [hgt, if_true, Bool.false_eq_true, false_iff]
        rintro (h | ⟨m, hm', hle, _⟩)
        · cases h
        · cases hm'
          exact absurd hgt (Nat.not_lt.mpr hle)
      · simp only [hgt, if_false, memoEntriesOkay_true_iff]
        constructor
        · intro h
          exact Or.inr ⟨memos, rfl, Nat.le_of_not_lt hgt, h⟩
        · rintro (h | ⟨m, hm', _, hall⟩)
          · cases h
          · cases hm'
            exact hall
  · intro c hc
    rw [allowedSymbols_eq_urlSafeByte]
    unfold urlSafeByte
    simp only [Bool.or_eq_false_iff, Bool.and_eq_false_iff, decide_eq_false_iff_not]
    refine ⟨⟨⟨Or.inr (by omega), Or.inr (by omega)⟩, Or.inr (by omega)⟩, ?_⟩
    simp only [List.contains_eq_any_beq, List.any_cons, List.any_nil, Bool.or_false,
      Bool.or_eq_false_iff, beq_eq_false_iff_ne]
    omega
  · intro c hc
    rw [allowedSymbols_eq_urlSafeByte]
    unfold urlSafeByte
    simp only [Bool.or_eq_false_iff, Bool.and_eq_false_iff, decide_eq_false_iff_not]
    refine ⟨⟨⟨Or.inl (by omega), Or.inl (by omega)⟩, Or.inl (by omega)⟩, ?_⟩
    simp only [List.contains_eq_any_beq, List.any_cons, List.any_nil, Bool.or_false,
      Bool.or_eq_false_iff, beq_eq_false_iff_ne]
    omega

/-- Witness of C12: a well-formed memo with free-form `MemoData` passes, and the bytes
200 and 32 are not on the whitelist. -/
theorem C12_isMemoOkay_iff_witness :
    (isMemoOkay (sampleMemoObject 10) "" (Config.mk 1024)).1 = true ∧
    allowedSymbols 200 = false ∧ allowedSymbols 32 = false :=
  have h := C12_isMemoOkay_iff (sampleMemoObject 10) "" (Config.mk 1024)
  ⟨h.1.2 (Or.inr ⟨_, rfl, by decide,
      by simp [MemoEntryWellFormed, MemoElementWellFormed, urlSafeByte]⟩),
    h.2.2.2.1 200 (by decide), h.2.2.2.2 32 (by decide)⟩

/-- C13: `isPseudoTx` is true exactly when the object has a `TransactionType` whose
value is `ttAMENDMENT`, `ttFEE` or `ttCONFIG`; it is false when the field is absent; and
an object for which it is true is rejected by `passesLocalChecks`. -/
theorem C13_isPseudoTx (P : Protocol) (tx : STObject) (reason : String) (config : Config) :
    (isPseudoTx P tx = true ↔
      ∃ tt, tx.transactionType = some tt ∧
        (tt = P.ttAMENDMENT ∨ tt = P.ttFEE ∨ tt = P.ttCONFIG)) ∧
    (tx.transactionType = none → isPseudoTx P tx = false) ∧
    (isPseudoTx P tx = true → (passesLocalChecks P tx reason config).1 = false) := by
  refine ⟨?_, ?_, ?_⟩
  · unfold isPseudoTx
    cases ht : tx.transactionType with
    | none => simp
    | some tt => simp [or_assoc]
  · intro h
    simp [isPseudoTx, h]
  · intro h
    unfold passesLocalChecks
    cases hm : isMemoOkay tx reason config with
    | mk b r =>
      cases b with
      | false => rfl
      | true =>
        simp only [h, if_true]
        split_ifs <;> rfl

/-- Witness of C13: the amendment type 100 is a pseudo-transaction and is rejected, an
object without `TransactionType` is not a pseudo-transaction. -/
theorem C13_isPseudoTx_witness :
    isPseudoTx sampleProtocol samplePseudo = true ∧
    isPseudoTx sampleProtocol (STObject.mk [] none none) = false ∧
    (passesLocalChecks sampleProtocol samplePseudo "" (Config.mk 1024)).1 = false :=
  have h := C13_isPseudoTx sampleProtocol samplePseudo "" (Config.mk 1024)
  ⟨h.1.2 ⟨100, rfl, Or.inl rfl⟩,
    (C13_isPseudoTx sampleProtocol (STObject.mk [] none none) "" (Config.mk 1024)).2.1 rfl,
    h.2.2 (by decide)⟩

/-- C14: an account identifier is in the result of `getMentionedAccounts` exactly when
some field is a non-default account field with that value, or some field is an amount
whose issuer it is and it is not the native-asset issuer; the result has no duplicates
(it is strictly ascending) and it is the same for every order of the fields. -/
theorem C14_getMentionedAccounts (isCSC : AccountID → Bool) (tx : STObject) :
    (∀ x, x ∈ getMentionedAccounts isCSC tx ↔
      (STBase.account false x ∈ tx.fields ∨
        (STBase.amount x ∈ tx.fields ∧ isCSC x = false))) ∧
    (getMentionedAccounts isCSC tx).Nodup ∧
    (getMentionedAccounts isCSC tx).Sorted (· < ·) ∧
    (∀ tx' : STObject, tx'.fields.Perm tx.fields →
      getMentionedAccounts isCSC tx' = getMentionedAccounts isCSC tx) := by
  have hmem : ∀ (t : STObject) x, x ∈ getMentionedAccounts isCSC t ↔ Mentions isCSC t.fields x := by
    intro t x
    unfold getMentionedAccounts
    rw [mem_getMentionedAccountsLoop]
    simp
  have hsorted : ∀ t : STObject, (getMentionedAccounts isCSC t).Sorted (· < ·) :=
    fun t => sorted_getMentionedAccountsLoop isCSC t.fields [] List.sorted_nil
  refine ⟨fun x => hmem tx x, sorted_lt_nodup _ (hsorted tx), hsorted tx, ?_⟩
  intro tx' hperm
  apply List.eq_of_perm_of_sorted _ (hsorted tx') (hsorted tx)
  rw [List.perm_ext_iff_of_nodup (sorted_lt_nodup _ (hsorted tx'))
    (sorted_lt_nodup _ (hsorted tx))]
  intro x
  rw [hmem tx' x, hmem tx x]
  unfold Mentions
  rw [hperm.mem_iff, hperm.mem_iff]

/-- Witness of C14: with the native issuer `0`, the mentioned accounts of
`sampleMentions` are 3 and 7, also when its fields are reversed. -/
theorem C14_getMentionedAccounts_witness :
    getMentionedAccounts (fun a => a == 0) sampleMentions = [3, 7] ∧
    getMentionedAccounts (fun a => a == 0)
      (STObject.mk sampleMentions.fields.reverse none (some 0)) =
      getMentionedAccounts (fun a => a == 0) sampleMentions :=
  ⟨by decide,
    (C14_getMentionedAccounts (fun a => a == 0) sampleMentions).2.2.2
      (STObject.mk sampleMentions.fields.reverse none (some 0))
      (List.reverse_perm sampleMentions.fields)⟩

/-- C15: construction from bytes fails with `"Transaction length invalid"` exactly when
the number of remaining bytes is below `txMinSizeBytes` or above `txMaxSizeBytes`; a
length equal to either bound does not fail that way; and with a length out of bounds
the result is that error whatever the deserialization does (it is not reached). -/
theorem C15_length_check {Obj Tmpl : Type} (E : TxEnv Obj Tmpl) (sit : SerialIter) :
    (constructFromSerialIter E sit =
        Except.error (Failure.runtimeError "Transaction length invalid") ↔
      sit.getBytesLeft < E.txMinSizeBytes ∨ sit.getBytesLeft > E.txMaxSizeBytes) ∧
    (E.txMinSizeBytes ≤ E.txMaxSizeBytes →
      sit.getBytesLeft = E.txMinSizeBytes ∨ sit.getBytesLeft = E.txMaxSizeBytes →
      constructFromSerialIter E sit ≠
        Except.error (Failure.runtimeError "Transaction length invalid")) ∧
    (sit.getBytesLeft < E.txMinSizeBytes ∨ sit.getBytesLeft > E.txMaxSizeBytes →
      ∀ set' : Blob → Throwing Obj,
        constructFromSerialIter { E with set := set' } sit =
          Except.error (Failure.runtimeError "Transaction length invalid")) := by
  have hiff : constructFromSerialIter E sit =
        Except.error (Failure.runtimeError "Transaction length invalid") ↔
      sit.getBytesLeft < E.txMinSizeBytes ∨ sit.getBytesLeft > E.txMaxSizeBytes := by
    constructor
    · intro h
      by_contra hb
      have hmin : E.txMinSizeBytes ≤ sit.getBytesLeft := by
        by_contra hc
        exact hb (Or.inl (Nat.lt_of_not_le hc))
      have hmax : sit.getBytesLeft ≤ E.txMaxSizeBytes := by
        by_contra hc
        exact hb (Or.inr (Nat.lt_of_not_le hc))
      rw [constructFromSerialIter_in_bounds E sit hmin hmax] at h
      cases hs : E.set sit.remaining with
      | none => simp [hs] at h
      | some object =>
        rw [hs] at h
        exact constructTail_ne_length E object h
    · intro h
      unfold constructFromSerialIter
      simp only [h, if_true]
  refine ⟨hiff, ?_, ?_⟩
  · intro hle hb h
    rcases hiff.1 h with h' | h'
    · rcases hb with hb | hb
      · rw [hb] at h'
        exact absurd h' (Nat.lt_irrefl _)
      · rw [hb] at h'
        exact absurd hle (Nat.not_le.mpr h')
    · rcases hb with hb | hb
      · rw [hb] at h'
        exact absurd hle (Nat.not_le.mpr h')
      · rw [hb] at h'
        exact absurd h' (Nat.lt_irrefl _)
  · intro h set'
    unfold constructFromSerialIter
    simp only [h, if_true]

/-- Witness of C15 with the bounds `[4, 16]` of `sampleEnv`: 2 bytes and 18 bytes are
rejected for their length, 4 bytes and 16 bytes are not. -/
theorem C15_length_check_witness :
    constructFromSerialIter sampleEnv (SerialIter.mk [2, 0]) =
      Except.error (Failure.runtimeError "Transaction length invalid") ∧
    constructFromSerialIter sampleEnv (SerialIter.mk (List.replicate 18 0)) =
      Except.error (Failure.runtimeError "Transaction length invalid") ∧
    constructFromSerialIter sampleEnv (SerialIter.mk [2, 0, 1, 5]) ≠
      Except.error (Failure.runtimeError "Transaction length invalid") ∧
    constructFromSerialIter sampleEnv (SerialIter.mk (List.replicate 16 0)) ≠
      Except.error (Failure.runtimeError "Transaction length invalid") :=
  ⟨(C15_length_check sampleEnv (SerialIter.mk [2, 0])).1.2 (Or.inl (by decide)),
    (C15_length_check sampleEnv (SerialIter.mk (List.replicate 18 0))).1.2
      (Or.inr (by decide)),
    (C15_length_check sampleEnv (SerialIter.mk [2, 0, 1, 5])).2.1 (by decide)
      (Or.inl (by decide)),
    (C15_length_check sampleEnv (SerialIter.mk (List.replicate 16 0))).2.1 (by decide)
      (Or.inr (by decide))⟩

/-- C17 as stated fails for the constructor from a template and a builder: on
`sampleEnv`, a builder that removes the required destination (field 3) of the
payment-shaped type 0 gets an envelope constructed, with a field set that omits the
required field and does not conform to the template. -/
theorem C17_counterexample :
    sampleEnv.findByType 0 = some (TxFormat.mk 0 sampleTemplate) ∧
    ((3, true) ∈ sampleTemplate) ∧
    ∃ T, constructFromAssembler sampleEnv 0
        sampleDropDestination = Except.ok T ∧
      T.object = [(2, 0), (1, 0)] ∧ (∀ f ∈ T.object, f.1 ≠ 3) ∧
      conformsTo T.object sampleTemplate = false :=
  ⟨rfl, by decide, _, rfl, rfl, by decide, by decide⟩

/-- C17, amended: template conformity is enforced by the constructor from a parsed
object and by the constructor from bytes: when `setType` is the template check and the
field set omits a field that the template of its discriminant requires, or contains a
field outside the template, the envelope is not constructed and construction from the
object, and from bytes within the length bounds that deserialize to it, fails with
`"transaction not valid"`. -/
theorem C17_template_conformity (E : TxEnv (List (Nat × Nat)) (List (Nat × Bool)))
    (hspec : ∀ o template, (E.setType o template).1 = conformsTo o template)
    (object : List (Nat × Nat)) (t : Nat) (format : TxFormat (List (Nat × Bool)))
    (ht : E.getFieldU16 object = some t) (hf : E.findByType t = some format)
    (hbad : (∃ e ∈ format.elements, e.2 = true ∧ ∀ f ∈ object, f.1 ≠ e.1) ∨
      (∃ f ∈ object, ∀ e ∈ format.elements, e.1 ≠ f.1)) :
    constructFromObject E object =
      Except.error (Failure.runtimeError "transaction not valid") ∧
    (∀ sit : SerialIter, E.txMinSizeBytes ≤ sit.getBytesLeft →
      sit.getBytesLeft ≤ E.txMaxSizeBytes → E.set sit.remaining = some object →
      constructFromSerialIter E sit =
        Except.error (Failure.runtimeError "transaction not valid")) := by
  have hv : (E.setType object format.elements).1 = false := by
    rw [hspec]
    rcases hbad with h | h
    · exact conformsTo_false_of_missing object format.elements h
    · exact conformsTo_false_of_extra object format.elements h
  have hres := constructTail_invalid E object t format ht hf hv
  refine ⟨hres, ?_⟩
  intro sit hmin hmax hs
  rw [constructFromSerialIter_in_bounds E sit hmin hmax, hs]
  exact hres

/-- Witness of C17: a payment without its destination is rejected from a parsed object
and from bytes, and so is one with a foreign field. -/
theorem C17_template_conformity_witness :
    constructFromObject sampleEnv sampleNoDestination =
      Except.error (Failure.runtimeError "transaction not valid") ∧
    constructFromSerialIter sampleEnv (SerialIter.mk [2, 0, 1, 5]) =
      Except.error (Failure.runtimeError "transaction not valid") ∧
    constructFromObject sampleEnv sampleExtraField =
      Except.error (Failure.runtimeError "transaction not valid") :=
  have h := C17_template_conformity sampleEnv (fun _ _ => rfl) sampleNoDestination 0
    (TxFormat.mk 0 sampleTemplate) rfl rfl
    (Or.inl ⟨(3, true), by decide, rfl, by decide⟩)
  ⟨h.1, h.2 (SerialIter.mk [2, 0, 1, 5]) (by decide) (by decide) rfl,
    (C17_template_conformity sampleEnv (fun _ _ => rfl) sampleExtraField 0
      (TxFormat.mk 0 sampleTemplate) rfl rfl
      (Or.inr ⟨(9, 1), by decide, by decide⟩)).1⟩

/-- C18: in the construction from a template and a builder, when the builder returns
and the `TransactionType` it leaves differs from the requested type, construction ends
with the `LogicError` `"Transaction type was mutated during assembly"`, which is not a
`runtime_error`; when the builder leaves the requested type, construction succeeds and
the discriminant is the requested type. -/
theorem C18_type_mutation {Obj Tmpl : Type} (E : TxEnv Obj Tmpl) (type : Nat)
    (assembler : Obj → Throwing Obj) (format : TxFormat Tmpl) (assembled : Obj) (t : Nat)
    (hf : E.findByType type = some format)
    (ha : assembler (E.setFieldU16 (E.setTemplate format.elements) format.getType) =
      some assembled)
    (ht : E.getFieldU16 assembled = some t) :
    (t ≠ type →
      constructFromAssembler E type assembler =
        Except.error (Failure.logicError "Transaction type was mutated during assembly") ∧
      ∀ what, constructFromAssembler E type assembler ≠
        Except.error (Failure.runtimeError what)) ∧
    (t = type →
      constructFromAssembler E type assembler =
        Except.ok (Envelope.mk assembled type
          (getHash E HashPrefix.transactionID assembled))) := by
  constructor
  · intro hne
    have hres : constructFromAssembler E type assembler =
        Except.error (Failure.logicError "Transaction type was mutated during assembly") := by
      simp [constructFromAssembler, getTxFormat_some E type format hf, ha, ht, hne]
    refine ⟨hres, ?_⟩
    intro what h
    rw [hres] at h
    cases h
  · intro heq
    subst heq
    simp [constructFromAssembler, getTxFormat_some E t format hf, ha, ht]

/-- Witness of C18 on `sampleEnv`: a builder that rewrites the type to 1 ends in the
`LogicError`, the builder that changes nothing yields an envelope of type 0. -/
theorem C18_type_mutation_witness :
    constructFromAssembler sampleEnv 0 sampleRetype =
      Except.error (Failure.logicError "Transaction type was mutated during assembly") ∧
    constructFromAssembler sampleEnv 0 some =
      Except.ok (Envelope.mk [(2, 0), (1, 0), (3, 0)] 0
        (getHash sampleEnv HashPrefix.transactionID [(2, 0), (1, 0), (3, 0)])) :=
  ⟨((C18_type_mutation sampleEnv 0 sampleRetype
      (TxFormat.mk 0 sampleTemplate) [(2, 1), (1, 0), (3, 0)] 1 rfl rfl rfl).1
        (by decide)).1,
    (C18_type_mutation sampleEnv 0 some (TxFormat.mk 0 sampleTemplate)
      [(2, 0), (1, 0), (3, 0)] 0 rfl rfl rfl).2 rfl⟩

/-- C19: after every successful construction (from an object, from bytes, from a
builder) and after every call of `sign`, the cached `tid_` is the hash of the
`transactionID` tag followed by the full serialization of the envelope as it then is;
`sign` stores the signature over the signing data in `TxnSignature` before the
identifier is recomputed. -/
theorem C19_cached_transaction_id {Obj Tmpl : Type} (E : TxEnv Obj Tmpl) :
    (∀ object T, constructFromObject E object = Except.ok T →
      T.tid_ = E.sha512Half (E.add32 HashPrefix.transactionID ++ E.add T.object)) ∧
    (∀ sit T, constructFromSerialIter E sit = Except.ok T →
      T.tid_ = E.sha512Half (E.add32 HashPrefix.transactionID ++ E.add T.object)) ∧
    (∀ type assembler T, constructFromAssembler E type assembler = Except.ok T →
      T.tid_ = E.sha512Half (E.add32 HashPrefix.transactionID ++ E.add T.object)) ∧
    (∀ (T : Envelope Obj) (publicKey secretKey : Blob),
      (sign E T publicKey secretKey).object =
        E.setFieldVL T.object (E.signData publicKey secretKey (getSigningData E T.object)) ∧
      (sign E T publicKey secretKey).tid_ =
        E.sha512Half (E.add32 HashPrefix.transactionID ++
          E.add (sign E T publicKey secretKey).object)) := by
  refine ⟨?_, ?_, ?_, ?_⟩
  · intro object T h
    exact (constructTail_tid E object T h).1
  · intro sit T h
    unfold constructFromSerialIter at h
    dsimp only at h
    split_ifs at h
    cases hs : E.set sit.remaining with
    | none => simp [hs] at h
    | some object =>
      rw [hs] at h
      exact (constructTail_tid E object T h).1
  · intro type assembler T h
    unfold constructFromAssembler at h
    cases hf : E.findByType type with
    | none => simp [getTxFormat_none E type hf] at h
    | some format =>
      simp only [getTxFormat_some E type format hf] at h
      cases ha : assembler (E.setFieldU16 (E.setTemplate format.elements) format.getType) with
      | none => simp [ha] at h
      | some assembled =>
        simp only [ha] at h
        cases ht : E.getFieldU16 assembled with
        | none => simp [ht] at h
        | some t =>
          simp only [ht] at h
          split_ifs at h
          cases h
          rfl
  · intro T publicKey secretKey
    exact ⟨rfl, rfl⟩

/-- Witness of C19 on `sampleEnv`: the envelope constructed from the bytes of
`samplePayment` carries the hash of its serialization, before and after signing. -/
theorem C19_cached_transaction_id_witness :
    (∃ T, constructFromSerialIter sampleEnv (SerialIter.mk [2, 0, 1, 5, 3, 6]) = Except.ok T ∧
      T.tid_ = sampleEnv.sha512Half ([84, 88, 78, 0] ++ [2, 0, 1, 5, 3, 6])) ∧
    (sign sampleEnv (Envelope.mk samplePayment 0 342586) [1] [2]).object =
      [(2, 0), (1, 5), (3, 6), (4, 11)] ∧
    (sign sampleEnv (Envelope.mk samplePayment 0 342586) [1] [2]).tid_ =
      sampleEnv.sha512Half ([84, 88, 78, 0] ++ [2, 0, 1, 5, 3, 6, 4, 11]) :=
  have h := C19_cached_transaction_id sampleEnv
  ⟨⟨_, rfl, h.2.1 (SerialIter.mk [2, 0, 1, 5, 3, 6]) _ rfl⟩,
    (h.2.2.2 (Envelope.mk samplePayment 0 342586) [1] [2]).1,
    (h.2.2.2 (Envelope.mk samplePayment 0 342586) [1] [2]).2⟩

/-- C23: for an envelope that passes the pre-checks, a signer that offends where it
stands (its account is the source account, or does not exceed the account of the signer
before it, the initial `lastAccountID` zero for the first signer, or its key is not
recognized or its signature does not verify) makes `checkMultiSign` return without
looking at the signers after it: replacing them by any others, the count staying
within the bounds, leaves the result unchanged; and when the signers before it pass the
scan and its only offence is the signature, the result is
`(false, "Invalid signature on account <base58 of its account>.")`. -/
theorem C23_scan_short_circuit (P : Protocol) (C : Crypto) (T : STTx)
    (pre post post' : List Signer) (s : Signer) (a src : AccountID)
    (hp : T.signersPresent = true) (hsig : T.txnSignaturePresent = false)
    (hl : T.signers = some (pre ++ s :: post))
    (hmin : P.minMultiSigners ≤ (pre ++ s :: post).length)
    (hmax : (pre ++ s :: post).length ≤ P.maxMultiSigners)
    (hmin' : P.minMultiSigners ≤ (pre ++ s :: post').length)
    (hmax' : (pre ++ s :: post').length ≤ P.maxMultiSigners)
    (hsrc : T.account = some src) (hs : s.account = some a)
    (hoff : a = src ∨
      signerVerifies C T.multiSigningDataStart (fullyCanonical P T) a s = false ∨
      ∃ b, predecessorAccount (some 0) pre = some b ∧ a ≤ b) :
    checkMultiSign P C { T with signers := some (pre ++ s :: post') } =
      checkMultiSign P C T ∧
    (∀ ids : List AccountID, pre.map Signer.account = ids.map some →
      List.Chain (· < ·) 0 ids → src ∉ ids →
      (∀ s' ∈ pre, ∀ a', s'.account = some a' →
        signerVerifies C T.multiSigningDataStart (fullyCanonical P T) a' s' = true) →
      a ≠ src → scanLast 0 ids < a →
      signerVerifies C T.multiSigningDataStart (fullyCanonical P T) a s = false →
      checkMultiSign P C T =
        some (false, "Invalid signature on account " ++ C.toBase58 a ++ ".")) := by
  constructor
  · rw [checkMultiSign_eq_loop P C { T with signers := some (pre ++ s :: post') }
        (pre ++ s :: post') src hp hsig rfl hmin' hmax' hsrc,
      checkMultiSign_eq_loop P C T (pre ++ s :: post) src hp hsig hl hmin hmax hsrc]
    exact loop_stops_at_offender C _ src _ s a post post' hs pre 0 hoff
  · intro ids hids hchain hne hver h1 hlt hbad
    rw [checkMultiSign_eq_loop P C T (pre ++ s :: post) src hp hsig hl hmin hmax hsrc,
      loop_append_accepts C _ src _ (s :: post) pre 0 ids hids hchain hne hver,
      loop_cons_some C _ src _ _ a s post hs]
    have h2 : scanLast 0 ids ≠ a := Nat.ne_of_lt hlt
    have h3 : ¬ scanLast 0 ids > a := Nat.not_lt.mpr (Nat.le_of_lt hlt)
    simp [h1, h2, h3, hbad]

/-- Witness of C23: after the valid signers 1 and 2, signer 3 carries a wrong
signature; the result names account 3 and does not change when the signers after it
are replaced. -/
theorem C23_scan_short_circuit_witness :
    checkMultiSign sampleProtocol sampleCrypto
      { sampleMulti [sampleSigner 1, sampleSigner 2, Signer.mk (some 3) (some sampleKey) (some []),
          sampleSigner 4] with
        signers := some [sampleSigner 1, sampleSigner 2,
          Signer.mk (some 3) (some sampleKey) (some []), Signer.mk none none none,
          sampleSigner 100] } =
      checkMultiSign sampleProtocol sampleCrypto
        (sampleMulti [sampleSigner 1, sampleSigner 2,
          Signer.mk (some 3) (some sampleKey) (some []), sampleSigner 4]) ∧
    checkMultiSign sampleProtocol sampleCrypto
      (sampleMulti [sampleSigner 1, sampleSigner 2,
        Signer.mk (some 3) (some sampleKey) (some []), sampleSigner 4]) =
      some (false, "Invalid signature on account 3.") :=
  have h := C23_scan_short_circuit sampleProtocol sampleCrypto
    (sampleMulti [sampleSigner 1, sampleSigner 2,
      Signer.mk (some 3) (some sampleKey) (some []), sampleSigner 4])
    [sampleSigner 1, sampleSigner 2] [sampleSigner 4]
    [Signer.mk none none none, sampleSigner 100]
    (Signer.mk (some 3) (some sampleKey) (some [])) 3 100 rfl rfl rfl (by decide)
    (by decide) (by decide) (by decide) rfl rfl (Or.inr (Or.inl (by decide)))
  ⟨h.1, h.2 [1, 2] rfl (by simp) (by decide) (by decide) (by decide) (by decide)
    (by decide)⟩

/-- C25: in `checkMultiSign`, an absent `Signers` field gives
`(false, "Empty SigningPubKey.")`, and otherwise a present `TxnSignature` gives
`(false, "Cannot both single- and multi-sign.")`; both hold whatever the signer array
is, also when it cannot be read, has a count out of bounds or holds unreadable
signers. -/
theorem C25_precheck_precedence (P : Protocol) (C : Crypto) (T : STTx) :
    (T.signersPresent = false →
      ∀ signers : Throwing (List Signer),
        checkMultiSign P C { T with signers := signers } =
          some (false, "Empty SigningPubKey.")) ∧
    (T.signersPresent = true → T.txnSignaturePresent = true →
      ∀ signers : Throwing (List Signer),
        checkMultiSign P C { T with signers := signers } =
          some (false, "Cannot both single- and multi-sign.")) := by
  constructor
  · intro hp signers
    simp [checkMultiSign, hp]
  · intro hp hsig signers
    simp [checkMultiSign, hp, hsig]

/-- Witness of C25: without `Signers` the answer is `"Empty SigningPubKey."`, with
`Signers` and `TxnSignature` it is `"Cannot both single- and multi-sign."`, in both
cases with nine unreadable signers. -/
theorem C25_precheck_precedence_witness :
    checkMultiSign sampleProtocol sampleCrypto
      { sampleNoSigners with signers := some (List.replicate 9 (Signer.mk none none none)) } =
      some (false, "Empty SigningPubKey.") ∧
    checkMultiSign sampleProtocol sampleCrypto
      { sampleBoth with signers := some (List.replicate 9 (Signer.mk none none none)) } =
      some (false, "Cannot both single- and multi-sign.") :=
  ⟨(C25_precheck_precedence sampleProtocol sampleCrypto sampleNoSigners).1 rfl _,
    (C25_precheck_precedence sampleProtocol sampleCrypto sampleBoth).2 rfl rfl _⟩

/-- C26: the pair returned by `checkSign` has first component true exactly when its
reason is empty, and so have the pairs returned by `checkSingleSign` and by
`checkMultiSign`: accepting paths return `(true, "")` and rejecting paths a non-empty
reason. -/
theorem C26_valid_iff_reason_empty (P : Protocol) (C : Crypto) (allowMultiSign : Bool)
    (T : STTx) :
    ((checkSign P C allowMultiSign T).1 = true ↔ (checkSign P C allowMultiSign T).2 = "") ∧
    ((checkSingleSign P C T).1 = true ↔ (checkSingleSign P C T).2 = "") ∧
    (∀ p, checkMultiSign P C T = some p → (p.1 = true ↔ p.2 = "")) := by
  refine ⟨?_, checkSingleSign_pair P C T, checkMultiSign_pair P C T⟩
  unfold checkSign checkSignTry
  cases allowMultiSign with
  | false => exact checkSingleSign_pair P C T
  | true =>
    cases hk : T.signingPubKey with
    | none => simp
    | some spk =>
      cases spk with
      | nil =>
        cases hm : checkMultiSign P C T with
        | none => simp [hm]
        | some p => simpa [hm] using checkMultiSign_pair P C T p hm
      | cons x xs => simpa using checkSingleSign_pair P C T

/-- Witness of C26: an accepted multi-signed envelope has the empty reason, a rejected
one has not. -/
theorem C26_valid_iff_reason_empty_witness :
    (checkSign sampleProtocol sampleCrypto true
      (sampleMulti [sampleSigner 1, sampleSigner 2, sampleSigner 3])).2 = "" ∧
    (checkSign sampleProtocol sampleCrypto true
      (sampleMulti [sampleSigner 2, sampleSigner 1])).2 ≠ "" :=
  ⟨(C26_valid_iff_reason_empty sampleProtocol sampleCrypto true
      (sampleMulti [sampleSigner 1, sampleSigner 2, sampleSigner 3])).1.1 (by decide),
    fun h => absurd ((C26_valid_iff_reason_empty sampleProtocol sampleCrypto true
      (sampleMulti [sampleSigner 2, sampleSigner 1])).1.2 h) (by decide)⟩

/-- C27: no signer list accepted by `checkMultiSign` holds a signer with the all-zero
account, `lastAccountID` starting at zero: a first signer with account zero, the source
account being another one, gets `(false, "Duplicate Signers not allowed.")` when the
pre-checks pass, whatever follows it, and a list with a zero account at any position is
rejected when all accounts can be read. -/
theorem C27_zero_account_rejected (P : Protocol) (C : Crypto) (T : STTx) :
    (∀ r l, checkMultiSign P C T = some (true, r) → T.signers = some l →
      ∀ s ∈ l, s.account ≠ some 0) ∧
    (∀ f rest src, T.signersPresent = true → T.txnSignaturePresent = false →
      T.signers = some (f :: rest) → P.minMultiSigners ≤ (f :: rest).length →
      (f :: rest).length ≤ P.maxMultiSigners → T.account = some src → src ≠ 0 →
      f.account = some 0 →
      checkMultiSign P C T = some (false, "Duplicate Signers not allowed.")) ∧
    (∀ l s, T.signers = some l → s ∈ l → s.account = some 0 →
      (∀ s' ∈ l, s'.account ≠ none) → T.account ≠ none →
      ∃ r, checkMultiSign P C T = some (false, r)) := by
  have hnever : ∀ r l, checkMultiSign P C T = some (true, r) → T.signers = some l →
      ∀ s ∈ l, s.account ≠ some 0 := by
    intro r l h hl s hs h0
    obtain ⟨_, _, l', src, hl', _, _, _, hloop⟩ := checkMultiSign_true P C T r h
    rw [hl] at hl'
    cases hl'
    obtain ⟨_, ids, hmap, hchain, _, _⟩ := accepts_of_loop_true C _ src _ l 0 r hloop
    have hmem : s.account ∈ l.map Signer.account := List.mem_map_of_mem _ hs
    rw [hmap, h0] at hmem
    rcases List.mem_map.1 hmem with ⟨x, hx, hxe⟩
    cases hxe
    exact absurd (chain_lt_pos ids 0 hchain 0 hx) (Nat.lt_irrefl 0)
  refine ⟨hnever, ?_, ?_⟩
  · intro f rest src hp hsig hl hmin hmax hsrc hne hf
    rw [checkMultiSign_eq_loop P C T (f :: rest) src hp hsig hl hmin hmax hsrc]
    exact loop_zero_first C _ src _ f rest hf hne
  · intro l s hl hs h0 hacc hsrc
    obtain ⟨p, hp⟩ := checkMultiSign_returns P C T l hl hacc hsrc
    obtain ⟨b, r⟩ := p
    cases b with
    | false => exact ⟨r, hp⟩
    | true => exact absurd h0 (hnever r l hp hl s hs)

/-- Witness of C27: the strictly ascending signers 0, 2, 3 get the duplicate answer,
and the signers 1, 0 are rejected. -/
theorem C27_zero_account_rejected_witness :
    checkMultiSign sampleProtocol sampleCrypto
      (sampleMulti [sampleSigner 0, sampleSigner 2, sampleSigner 3]) =
      some (false, "Duplicate Signers not allowed.") ∧
    ∃ r, checkMultiSign sampleProtocol sampleCrypto
      (sampleMulti [sampleSigner 1, sampleSigner 0]) = some (false, r) :=
  ⟨(C27_zero_account_rejected sampleProtocol sampleCrypto
      (sampleMulti [sampleSigner 0, sampleSigner 2, sampleSigner 3])).2.1
      (sampleSigner 0) [sampleSigner 2, sampleSigner 3] 100 rfl rfl rfl (by decide)
      (by decide) rfl (by decide) rfl,
    (C27_zero_account_rejected sampleProtocol sampleCrypto
      (sampleMulti [sampleSigner 1, sampleSigner 0])).2.2
      [sampleSigner 1, sampleSigner 0] (sampleSigner 0) rfl (by decide) rfl (by decide)
      (by decide)⟩

/-- C21: `checkInvariants` only escalates: a preliminary result that is not a success is
never turned into a success (the result is the preliminary result or the reserved
invariant-failed class), and when a checker of the chain reports a violation on the
result that reaches it, the returned result is the invariant-failed class whatever the
preliminary result was and whatever the checkers after it report. -/
theorem C21_checkInvariants_escalates {Entry State : Type} (delta : List Entry) :
    (∀ (checkers : List (InvariantChecker Entry State)) (ter : TER), ter ≠ TER.success →
      checkInvariants delta checkers ter ≠ TER.success) ∧
    (∀ (checkers : List (InvariantChecker Entry State)) (ter : TER),
      checkInvariants delta checkers ter = ter ∨
        checkInvariants delta checkers ter = TER.invariantFailed) ∧
    (∀ (pre post : List (InvariantChecker Entry State)) (c : InvariantChecker Entry State)
      (ter : TER),
      c.finalize (delta.foldl c.visitEntry c.init) (checkInvariants delta pre ter) = false →
      checkInvariants delta (pre ++ c :: post) ter = TER.invariantFailed) := by
  refine ⟨?_, checkInvariants_cases delta, ?_⟩
  · intro checkers ter hne h
    rcases checkInvariants_cases delta checkers ter with h' | h'
    · rw [h'] at h
      exact hne h
    · rw [h'] at h
      cases h
  · intro pre post c ter hv
    rw [checkInvariants_append, checkInvariants, hv]
    simp only [Bool.false_eq_true, if_false]
    exact checkInvariants_invariantFailed delta post

/-- Witness of C21: with three mutated entries the counting checker reports a
violation, so a preliminary success becomes the invariant-failed class; a preliminary
failure with two mutated entries stays a failure. -/
theorem C21_checkInvariants_escalates_witness :
    checkInvariants [5, 6, 7] [sampleQuietChecker, sampleCountChecker, sampleQuietChecker]
      TER.success = TER.invariantFailed ∧
    checkInvariants [5, 6] [sampleQuietChecker, sampleCountChecker] (TER.failure 3) ≠
      TER.success :=
  ⟨(C21_checkInvariants_escalates [5, 6, 7]).2.2 [sampleQuietChecker] [sampleQuietChecker]
      sampleCountChecker TER.success (by decide),
    (C21_checkInvariants_escalates [5, 6]).1 [sampleQuietChecker, sampleCountChecker]
      (TER.failure 3) (by decide)⟩

/-- C22: after any sequence of mutations staged through the context, `discard` leaves
a fresh staged view over the same base with the same flags: `size` is 0, `visit` calls
its callback for no key, no delivered amount and no destroyed amount are left, every
read through the view returns what the base view returns, and the base view is the one
the context started with. -/
theorem C22_discard_resets {Key Entry Flags : Type} [DecidableEq Key]
    (ctx : ApplyContext Key Entry Flags) (ms : List (Mutation Key Entry)) :
    (ms.foldl ApplyContext.stage ctx).discard.size = 0 ∧
    (ms.foldl ApplyContext.stage ctx).discard.visit = [] ∧
    (ms.foldl ApplyContext.stage ctx).discard.view_.delivered = none ∧
    (ms.foldl ApplyContext.stage ctx).discard.view_.destroyed = 0 ∧
    (∀ key, (ms.foldl ApplyContext.stage ctx).discard.read key = ctx.base_ key) ∧
    (ms.foldl ApplyContext.stage ctx).discard.base_ = ctx.base_ ∧
    (ms.foldl ApplyContext.stage ctx).discard.flags_ = ctx.flags_ := by
  have hb := stage_foldl_base ms ctx
  refine ⟨rfl, rfl, rfl, rfl, ?_, hb.1, hb.2⟩
  intro key
  show (ms.foldl ApplyContext.stage ctx).base_ key = ctx.base_ key
  rw [hb.1]

/-- Witness of C22: a staged write of the key 1 is read back before `discard` and the
base content 10 is read after it, with an empty delta. -/
theorem C22_discard_resets_witness :
    (sampleContext.stage (Mutation.write 1 20)).read 1 = some 20 ∧
    (sampleContext.stage (Mutation.write 1 20)).size = 1 ∧
    ([Mutation.write 1 20, Mutation.erase 2, Mutation.deliver 5].foldl ApplyContext.stage
      sampleContext).discard.size = 0 ∧
    ([Mutation.write 1 20, Mutation.erase 2, Mutation.deliver 5].foldl ApplyContext.stage
      sampleContext).discard.read 1 = some 10 :=
  have h := C22_discard_resets sampleContext
    [Mutation.write 1 20, Mutation.erase 2, Mutation.deliver 5]
  ⟨by decide, by decide, h.1, h.2.2.2.2.1 1⟩

/-- C7: for an envelope without a `Signers` field, `checkSingleSign` (which is also the
value of `checkSign (false)`) returns `(true, "")` exactly when both reads succeed, the
`SigningPubKey` has a recognized key type and `verify` returns true on the signing
data, called with the canonical requirement `getFlags () & tfFullyCanonicalSig ≠ 0`; in
every other case, a failed read or a throwing `verify` included, it returns
`(false, "Invalid signature.")`. -/
theorem C7_single_sign_result (P : Protocol) (C : Crypto) (T : STTx)
    (hs : T.signersPresent = false) :
    (checkSingleSign P C T = (true, "") ↔
      ∃ spk sig, T.signingPubKey = some spk ∧ (C.publicKeyType spk).isSome = true ∧
        T.txnSignature = some sig ∧
        C.verify spk T.signingData sig (decide (T.flags &&& P.tfFullyCanonicalSig ≠ 0)) =
          some true) ∧
    (checkSingleSign P C T ≠ (true, "") →
      checkSingleSign P C T = (false, "Invalid signature.")) ∧
    checkSign P C false T = checkSingleSign P C T := by
  have hres := checkSingleSign_no_signers P C T hs
  refine ⟨?_, ?_, checkSign_false P C T⟩
  · rw [← fullyCanonical_eq, ← singleSignTry_eq_some_true, hres]
    by_cases ht : singleSignTry P C T = some true <;> simp [ht]
  · intro hne
    rw [hres] at hne ⊢
    by_cases ht : singleSignTry P C T = some true
    · simp [ht] at hne
    · simp [ht]

/-- Witness of C7: the validly signed sample is accepted by `checkSign (false)`, the one
with a wrong signature gets `(false, "Invalid signature.")`; under primitives that
verify only canonical signatures, the sample with the flag bit `0x80000000` is accepted
and the same sample without the bit gets `(false, "Invalid signature.")`. -/
theorem C7_single_sign_result_witness :
    checkSign sampleProtocol sampleCrypto false sampleSingle = (true, "") ∧
    checkSingleSign sampleProtocol sampleCrypto sampleSingleBad =
      (false, "Invalid signature.") ∧
    checkSingleSign sampleProtocol sampleStrictCrypto sampleSingleCanonical = (true, "") ∧
    checkSingleSign sampleProtocol sampleStrictCrypto sampleSingle =
      (false, "Invalid signature.") :=
  have h := C7_single_sign_result sampleProtocol sampleCrypto sampleSingle rfl
  have h' := C7_single_sign_result sampleProtocol sampleCrypto sampleSingleBad rfl
  have hc := C7_single_sign_result sampleProtocol sampleStrictCrypto sampleSingleCanonical rfl
  have hn := C7_single_sign_result sampleProtocol sampleStrictCrypto sampleSingle rfl
  ⟨h.2.2.trans (h.1.2 ⟨sampleKey, [9], rfl, by decide, rfl, by decide⟩),
    h'.2.1 (by decide),
    hc.1.2 ⟨sampleKey, [9], rfl, by decide, rfl, by decide⟩,
    hn.2.1 (fun hacc => by
      obtain ⟨spk, sig, hk, _, hsg, hv⟩ := hn.1.1 hacc
      cases hk
      cases hsg
      exact absurd hv (by decide))⟩

/-- C24: when `checkMultiSign` returns a pair with first component true, the reason is
empty and every signer of the array, none left out, has a readable account, a key of a
recognized type and a signature for which `verify` returned true, called with the
canonical requirement `getFlags () & tfFullyCanonicalSig ≠ 0` of the transaction, on the
message made of the one shared start `startMultiSigningData` completed by
`finishMultiSigningData` for that signer's own account. -/
theorem C24_multi_sign_soundness (P : Protocol) (C : Crypto) (T : STTx) (r : String)
    (h : checkMultiSign P C T = some (true, r)) :
    r = "" ∧
    ∃ l, T.signers = some l ∧
      ∀ s ∈ l, ∃ a spk sig, s.account = some a ∧ s.signingPubKey = some spk ∧
        (C.publicKeyType spk).isSome = true ∧ s.txnSignature = some sig ∧
        C.verify spk (C.finishMultiSigningData a T.multiSigningDataStart) sig
          (decide (T.flags &&& P.tfFullyCanonicalSig ≠ 0)) = some true := by
  obtain ⟨_, _, l, src, hl, _, _, _, hloop⟩ := checkMultiSign_true P C T r h
  obtain ⟨hr, ids, hmap, _, _, hver⟩ := accepts_of_loop_true C _ src _ l 0 r hloop
  refine ⟨hr, l, hl, ?_⟩
  intro s hs
  cases ha : s.account with
  | none => exact absurd ha (map_some_readable l ids hmap s hs)
  | some a =>
    obtain ⟨spk, sig, hk, hpk, hsg, hv⟩ := signerVerifies_true C _ _ a s (hver s hs a ha)
    rw [fullyCanonical_eq] at hv
    exact ⟨a, spk, sig, rfl, hk, hpk, hsg, hv⟩

/-- Witness of C24: under primitives that verify only canonical signatures, the signers
1, 2, 3 of an envelope with the flag bit `0x80000000` are accepted, and each of them
verified with the canonical requirement true on the start `[7]` completed by its own
account; without the flag bit the same envelope is not accepted. -/
theorem C24_multi_sign_soundness_witness :
    (("" : String) = "" ∧
      ∃ l, (sampleMultiFlags 0x80000000
          [sampleSigner 1, sampleSigner 2, sampleSigner 3]).signers = some l ∧
        ∀ s ∈ l, ∃ a spk sig, s.account = some a ∧ s.signingPubKey = some spk ∧
          (sampleStrictCrypto.publicKeyType spk).isSome = true ∧
          s.txnSignature = some sig ∧
          sampleStrictCrypto.verify spk (sampleStrictCrypto.finishMultiSigningData a [7]) sig
            (decide (0x80000000 &&& sampleProtocol.tfFullyCanonicalSig ≠ 0)) = some true) ∧
    (decide (0x80000000 &&& sampleProtocol.tfFullyCanonicalSig ≠ 0) = true) ∧
    checkMultiSign sampleProtocol sampleStrictCrypto
      (sampleMultiFlags 0 [sampleSigner 1, sampleSigner 2, sampleSigner 3]) =
      some (false, "Invalid signature on account 1.") :=
  ⟨C24_multi_sign_soundness sampleProtocol sampleStrictCrypto
      (sampleMultiFlags 0x80000000 [sampleSigner 1, sampleSigner 2, sampleSigner 3]) ""
      (by decide),
    by decide, by decide⟩

/-- C16 as stated fails: on `sampleEnv`, with the bounds `[4, 16]`, the five bytes
`2, 0, 1, 5, 3` pass the length check and do not deserialize, and the sixteen zero bytes
pass it and deserialize to an object without `TransactionType`, as does the parsed
object with the fields 1 and 3 only; each construction ends with the exception of the
called function, which is neither of the two named errors nor a success. -/
theorem C16_counterexample :
    sampleEnv.txMinSizeBytes ≤ (SerialIter.mk [2, 0, 1, 5, 3]).getBytesLeft ∧
    (SerialIter.mk [2, 0, 1, 5, 3]).getBytesLeft ≤ sampleEnv.txMaxSizeBytes ∧
    constructFromSerialIter sampleEnv (SerialIter.mk [2, 0, 1, 5, 3]) =
      Except.error Failure.calleeThrew ∧
    sampleEnv.txMinSizeBytes ≤ (SerialIter.mk (List.replicate 16 0)).getBytesLeft ∧
    (SerialIter.mk (List.replicate 16 0)).getBytesLeft ≤ sampleEnv.txMaxSizeBytes ∧
    constructFromSerialIter sampleEnv (SerialIter.mk (List.replicate 16 0)) =
      Except.error Failure.calleeThrew ∧
    constructFromObject sampleEnv [(1, 5), (3, 6)] = Except.error Failure.calleeThrew ∧
    (∀ what, Except.error Failure.calleeThrew ≠
      (Except.error (Failure.runtimeError what) :
        Except Failure (Envelope (List (Nat × Nat))))) ∧
    (∀ T : Envelope (List (Nat × Nat)),
      (Except.error Failure.calleeThrew : Except Failure (Envelope (List (Nat × Nat)))) ≠
        Except.ok T) := by
  refine ⟨by decide, by decide, rfl, by decide, by decide, rfl, rfl, ?_, ?_⟩
  · intro what h
    cases h
  · intro T h
    cases h

/-- C16, amended: construction from a parsed object ends with the exception of the
field read when `TransactionType` cannot be read; when it reads as `t`, it fails with
`"Invalid transaction type t"` when the registry has no template for `t` (whatever
`setType` would say), fails with `"transaction not valid"` when the template exists and
`setType` reports that the fields do not conform, and in every other case succeeds
with discriminant `t`.  Construction from bytes that pass the length check ends with
the exception of the deserialization when the bytes do not deserialize, and otherwise
does what construction from the deserialized object does. -/
theorem C16_type_and_template_checks {Obj Tmpl : Type} (E : TxEnv Obj Tmpl) :
    (∀ object, E.getFieldU16 object = none →
      constructFromObject E object = Except.error Failure.calleeThrew) ∧
    (∀ object t, E.getFieldU16 object = some t →
      (E.findByType t = none →
        constructFromObject E object =
          Except.error (Failure.runtimeError ("Invalid transaction type " ++ toString t))) ∧
      (∀ format, E.findByType t = some format →
        (E.setType object format.elements).1 = false →
        constructFromObject E object =
          Except.error (Failure.runtimeError "transaction not valid")) ∧
      (∀ format, E.findByType t = some format →
        (E.setType object format.elements).1 = true →
        constructFromObject E object =
          Except.ok (Envelope.mk (E.setType object format.elements).2 t
            (getHash E HashPrefix.transactionID (E.setType object format.elements).2)))) ∧
    (∀ sit : SerialIter, E.txMinSizeBytes ≤ sit.getBytesLeft →
      sit.getBytesLeft ≤ E.txMaxSizeBytes → E.set sit.remaining = none →
      constructFromSerialIter E sit = Except.error Failure.calleeThrew) ∧
    (∀ (sit : SerialIter) (object : Obj), E.txMinSizeBytes ≤ sit.getBytesLeft →
      sit.getBytesLeft ≤ E.txMaxSizeBytes → E.set sit.remaining = some object →
      constructFromSerialIter E sit = constructFromObject E object) := by
  refine ⟨?_, ?_, ?_, ?_⟩
  · intro object ht
    exact constructTail_none E object ht
  · intro object t ht
    refine ⟨?_, ?_, ?_⟩
    · intro hf
      exact constructTail_unknown E object t ht hf
    · intro format hf hv
      exact constructTail_invalid E object t format ht hf hv
    · intro format hf hv
      exact constructTail_valid E object t format ht hf hv
  · intro sit hmin hmax hs
    rw [constructFromSerialIter_in_bounds E sit hmin hmax, hs]
  · intro sit object hmin hmax hs
    rw [constructFromSerialIter_in_bounds E sit hmin hmax, hs]
    rfl

/-- Witness of C16 on `sampleEnv`: an object without `TransactionType`, the unknown
type 7, a payment without destination, a conforming payment, bytes that do not
deserialize and the bytes of the conforming payment. -/
theorem C16_type_and_template_checks_witness :
    constructFromObject sampleEnv [(1, 5), (3, 6)] = Except.error Failure.calleeThrew ∧
    constructFromObject sampleEnv [(2, 7), (1, 5)] =
      Except.error (Failure.runtimeError "Invalid transaction type 7") ∧
    constructFromObject sampleEnv sampleNoDestination =
      Except.error (Failure.runtimeError "transaction not valid") ∧
    constructFromObject sampleEnv samplePayment =
      Except.ok (Envelope.mk samplePayment 0
        (getHash sampleEnv HashPrefix.transactionID samplePayment)) ∧
    constructFromSerialIter sampleEnv (SerialIter.mk [2, 0, 1, 5, 3]) =
      Except.error Failure.calleeThrew ∧
    constructFromSerialIter sampleEnv (SerialIter.mk [2, 0, 1, 5, 3, 6]) =
      constructFromObject sampleEnv samplePayment :=
  have h := C16_type_and_template_checks sampleEnv
  ⟨h.1 [(1, 5), (3, 6)] rfl,
    (h.2.1 [(2, 7), (1, 5)] 7 rfl).1 rfl,
    (h.2.1 sampleNoDestination 0 rfl).2.1 (TxFormat.mk 0 sampleTemplate) rfl rfl,
    (h.2.1 samplePayment 0 rfl).2.2 (TxFormat.mk 0 sampleTemplate) rfl rfl,
    h.2.2.1 (SerialIter.mk [2, 0, 1, 5, 3]) (by decide) (by decide) rfl,
    h.2.2.2 (SerialIter.mk [2, 0, 1, 5, 3, 6]) samplePayment (by decide) (by decide) rfl⟩

end casinocoin
